import Mathlib

/-!
# SentinalOS — shallow embedding and verification

This file embeds the parts of the SentinalOS sources that the checked
claims are about, as executable Lean definitions, and proves (or refutes)
each claim against the embedding.

Conventions:
* C machine integers are modelled as `Nat`, with explicit `% 2 ^ w` or
  `&&& mask` exactly where C truncation can occur.
* C functions that mutate global state are modelled as state-passing
  functions on explicit state structures.
* External functions that are declared but not defined in the sources
  (`fs_read_inode`, `fs_get_inode`, …) appear as oracle parameters.
* A definition whose doc comment starts with `Modelled from the spec:`
  stands for code the repository declares but does not implement; it is
  derived from the specification text, not from a source body.
-/

set_option maxRecDepth 10000

/-! ## Scheduler (src/kernel/sched/scheduler.c) -/

namespace Sched

/-- `enum proc_state` from scheduler.c. -/
inductive ProcState where
  | running | ready | blocked | zombie | dead
deriving DecidableEq, Repr

/-- The fields of `struct process` that the scheduler dispatch reads or
writes: pid, Bell-LaPadula level, state and priority. -/
structure Proc where
  pid : Nat
  sec_level : Nat
  state : ProcState
  priority : Nat
deriving DecidableEq, Repr

/-- The fields of `sched_state` (plus `current_process`) that `schedule`
touches.  The intrusive doubly-linked ready queue is modelled as a list,
head first. -/
structure State where
  initialized : Bool
  ready_queue : List Proc
  current : Option Proc
  context_switches : Nat
deriving DecidableEq, Repr

/-- `security_check` from scheduler.c: Bell-LaPadula, operation 0 is
"read" (no read up), anything else is "write" (no write down). -/
def security_check (src dest : Proc) (operation : Nat) : Bool :=
  if operation = 0 then
    decide (dest.sec_level ≤ src.sec_level)
  else
    decide (src.sec_level ≤ dest.sec_level)

/-- `add_to_ready_queue` from scheduler.c: sets the state to `READY` and
pushes the process at the *head* of the ready queue. -/
def add_to_ready_queue (s : State) (proc : Proc) : State :=
  { s with ready_queue := { proc with state := .ready } :: s.ready_queue }

/-- `context_switch` from scheduler.c, register traffic elided: bails out
when either side is missing (counter untouched), otherwise bumps
`context_switches`, marks the outgoing PCB `READY` and installs the
incoming PCB as `current` in state `RUNNING`. -/
def context_switch (s : State) (fromP : Option Proc) (toP : Proc) : State :=
  match fromP with
  | none => s
  | some _ =>
      { s with
        context_switches := s.context_switches + 1
        current := some { toP with state := .running } }

/-- `schedule` from scheduler.c.  Picks the head of the ready queue,
applies `security_check` on a "read" edge against the current process,
and only on success removes it, re-queues the outgoing process (if still
`RUNNING`) and context-switches. -/
def schedule (s : State) : State :=
  if ¬ s.initialized then s
  else
    match s.ready_queue with
    | [] => s
    | next :: rest =>
        match s.current with
        | some cur =>
            if ¬ security_check cur next 0 then s
            else
              let s1 := { s with ready_queue := rest }
              let s2 := if cur.state = .running then add_to_ready_queue s1 cur else s1
              context_switch s2 (some cur) next
        | none =>
            let s1 := { s with ready_queue := rest }
            context_switch s1 none next

end Sched

/-! ## Kernel heap (src/kernel/mm/memory.c: `early_kmalloc`, `kmalloc`) -/

namespace MM

/-- What a call to the bump allocator produces: a pointer, or a kernel
panic (the `PANIC` macro never returns). -/
inductive KmallocResult where
  | ptr (addr : Nat)
  | panic (msg : String)
deriving DecidableEq, Repr

def KERNEL_HEAP_START : Nat := 0xFFFFFFFF90000000
def KERNEL_HEAP_SIZE : Nat := 0x10000000
def EARLY_HEAP_SIZE : Nat := 1024 * 1024
def U64 : Nat := 2 ^ 64

/-- The allocator-relevant fields of `mm_state` plus the early heap
cursor. -/
structure HeapState where
  initialized : Bool
  kernel_heap_ptr : Nat
  used_memory : Nat
  early_heap_offset : Nat
deriving DecidableEq, Repr

/-- `(size + 7) & ~7` on a 64-bit `size_t`. -/
def align8 (size : Nat) : Nat := ((size + 7) % U64) &&& (U64 - 8)

/-- `early_kmalloc` from memory.c: 8-byte aligned bump allocation out of
the 1 MiB `early_heap`; `PANIC("Early heap exhausted")` when the cursor
would pass the end. -/
def early_kmalloc (st : HeapState) (size0 : Nat) : KmallocResult × HeapState :=
  let size := align8 size0
  if (st.early_heap_offset + size) % U64 > EARLY_HEAP_SIZE then
    (.panic ("Early heap exhausted"), st)
  else
    (.ptr st.early_heap_offset,
     { st with early_heap_offset := st.early_heap_offset + size })

/-- `kmalloc` from memory.c: before `mm_init` completes it defers to
`early_kmalloc`; afterwards it bump-allocates from the fixed 256 MiB
kernel-heap window and `PANIC("Kernel heap exhausted")` when the cursor
would pass the end. -/
def kmalloc (st : HeapState) (size0 : Nat) : KmallocResult × HeapState :=
  if ¬ st.initialized then early_kmalloc st size0
  else
    let size := align8 size0
    if (st.kernel_heap_ptr + size) % U64 > KERNEL_HEAP_START + KERNEL_HEAP_SIZE then
      (.panic ("Kernel heap exhausted"), st)
    else
      (.ptr st.kernel_heap_ptr,
       { st with
          kernel_heap_ptr := st.kernel_heap_ptr + size
          used_memory := st.used_memory + size })

end MM

/-! ## Path security (src/kernel/fs/vfs.c: `check_path_security`) -/

namespace VFS

/-- The fields of `current_process` that `check_path_security` reads. -/
structure ProcCtx where
  security_level : Nat
  uid : Nat
deriving DecidableEq, Repr

def classifiedStr : List Char := "/classified/".toList
def secretStr : List Char := "/secret/".toList
def pentagonStr : List Char := "/pentagon/".toList
def systemStr : List Char := "/system/".toList

/-- `check_path_security` from vfs.c.  `strstr` is substring containment;
`operation & 0x02` marks a write.  Returns 0 (allow) or -1 (deny). -/
def check_path_security (cur : Option ProcCtx) (path : List Char) (operation : Nat) : Int :=
  match cur with
  | none => 0
  | some p =>
      if p.security_level < 2 ∧
         (classifiedStr <:+: path ∨ secretStr <:+: path ∨
          pentagonStr <:+: path) then
        -1
      else if operation &&& 0x02 ≠ 0 ∧ systemStr <:+: path ∧ p.uid ≠ 0 then
        -1
      else 0

/-- The default path policy as the claim words it: the `/system/` rule
fires only on paths that *begin with* `/system/` (the source instead
tests containment).  Kept for comparison with `check_path_security`. -/
def claimed_path_policy (p : ProcCtx) (path : List Char) (operation : Nat) : Int :=
  if p.security_level < 2 ∧
     (classifiedStr <:+: path ∨ secretStr <:+: path ∨
      pentagonStr <:+: path) then
    -1
  else if operation &&& 0x02 ≠ 0 ∧ systemStr <+: path ∧ p.uid ≠ 0 then
    -1
  else 0

end VFS

/-! ## Ready queue (src/kernel/core/process.c) -/

namespace ProcQ

/-- `process_state_t` from system.h. -/
inductive PState where
  | ready | running | blocked | zombie | terminated
deriving DecidableEq, Repr

/-- The fields of `struct process` (system.h) that the ready-queue code
reads: pid, priority and state. -/
structure Proc where
  pid : Nat
  priority : Nat
  state : PState
deriving DecidableEq, Repr

/-- The walk in `add_to_ready_queue` (process.c): starting from `curr`,
advance while `curr->next` exists and has priority `≥ proc->priority`,
then link `proc` in after `curr`. -/
def insertWalk (p : Proc) : Proc → List Proc → List Proc
  | curr, [] => [curr, p]
  | curr, nxt :: rest =>
      if p.priority ≤ nxt.priority then curr :: insertWalk p nxt rest
      else curr :: p :: nxt :: rest

/-- `add_to_ready_queue` from process.c: refuses non-`READY` processes,
inserts at the head when the queue is empty or the head has strictly
lower priority, otherwise walks past every node of priority
`≥ proc->priority` and inserts there. -/
def add_to_ready_queue (q : List Proc) (p : Proc) : List Proc :=
  if p.state ≠ PState.ready then q
  else
    match q with
    | [] => [p]
    | h :: t => if h.priority < p.priority then p :: h :: t else insertWalk p h t

/-- The dequeue step of `process_schedule` (process.c): the scheduler
always takes the head of the ready queue and removes it. -/
def dequeue (q : List Proc) : Option Proc × List Proc :=
  match q with
  | [] => (none, [])
  | h :: t => (some h, t)

/-- Descending-priority order, the invariant §4.3 states for the ready
queue. -/
def SortedDesc (q : List Proc) : Prop :=
  List.Chain' (fun a b => b.priority ≤ a.priority) q

instance (q : List Proc) : Decidable (SortedDesc q) := by
  unfold SortedDesc; exact List.decidableChain' q

end ProcQ

/-! ## System calls (src/kernel/core/syscalls.c) -/

namespace Sys

def MAX_OPEN_FILES : Nat := 256

/-- `struct file_descriptor` from system.h; the inode pointer is `none`
for a free slot. -/
structure FD where
  inode : Option Nat
  offset : Nat
  flags : Nat
  mode : Nat
  ref_count : Nat
deriving DecidableEq, Repr

/-- A free file-table slot (`inode = NULL`). -/
def FD.free : FD := ⟨none, 0, 0, 0, 0⟩

/-- The per-process bit `current_process->open_files[fd]`. -/
structure CurProc where
  open_files : Nat → Nat

/-- The global state `sys_read`/`sys_write`/`sys_open` touch: the file
table and the current process (when any). -/
structure SysState where
  file_table : Nat → FD
  current : Option CurProc

/-- Sign-extension of a C `long` return: `fs_read_inode`/`fs_write_inode`
return a `long`, modelled directly as `Int`. -/
abbrev IoOracle := Nat → Nat → Nat → Int

/-- `sys_read` from syscalls.c.  `fsRead inode offset count` stands for
the external `fs_read_inode` (declared in system.h, not defined in the
sources).  Returns the syscall result and the updated state. -/
def sys_read (st : SysState) (fsRead : IoOracle) (fd buf count : Nat) :
    Int × SysState :=
  if fd ≥ MAX_OPEN_FILES ∨ (st.file_table fd).inode = none then (-9, st)
  else if buf = 0 ∨ count = 0 then (-14, st)
  else
    let file := st.file_table fd
    let bytes_read := fsRead (file.inode.getD 0) file.offset count
    if bytes_read > 0 then
      (bytes_read,
       { st with
          file_table := Function.update st.file_table fd
            { file with offset := file.offset + bytes_read.toNat } })
    else (bytes_read, st)

/-- `sys_write` from syscalls.c.  `fsWrite` stands for the external
`fs_write_inode`.  Writes to fd 1/2 go to the console and return
`count` (cast through a C `long`). -/
def sys_write (st : SysState) (fsWrite : IoOracle) (fd buf count : Nat) :
    Int × SysState :=
  if fd ≥ MAX_OPEN_FILES then (-9, st)
  else if buf = 0 ∨ count = 0 then (-14, st)
  else if fd = 1 ∨ fd = 2 then
    ((Int.ofNat (count % 2 ^ 64) + 2 ^ 63) % 2 ^ 64 - 2 ^ 63, st)
  else if (st.file_table fd).inode = none then (-9, st)
  else
    let file := st.file_table fd
    let bytes_written := fsWrite (file.inode.getD 0) file.offset count
    if bytes_written > 0 then
      (bytes_written,
       { st with
          file_table := Function.update st.file_table fd
            { file with offset := file.offset + bytes_written.toNat } })
    else (bytes_written, st)

/-- The descriptor scan in `sys_open`: the first `i` in `[3, MAX_OPEN_FILES)`
whose slot has a NULL inode (slots 0,1,2 are reserved for
stdin/stdout/stderr). -/
def findFreeFd (ft : Nat → FD) : Option Nat :=
  (List.range' 3 (MAX_OPEN_FILES - 3)).find? (fun i => (ft i).inode = none)

/-- The inode-resolution step of `sys_open`: `fs_get_inode(0)`, with a
create-and-retry when `O_CREAT` (0x40) is set.  `fsGetInode` stands for
the external `fs_get_inode` (declared in system.h only), `fsCreate` for
`fs_create_file`; the second oracle is the result of calling
`fs_get_inode(0)` again after a successful create. -/
def openInodeStep (fsGetInode fsGetInodeAfterCreate : Unit → Option Nat)
    (fsCreate : List Char → Nat → Int) (path : List Char)
    (flags mode : Nat) : Option Nat :=
  match fsGetInode () with
  | some ino => some ino
  | none =>
      if flags &&& 0x40 ≠ 0 then
        if fsCreate path mode ≠ 0 then none
        else fsGetInodeAfterCreate ()
      else none

/-- `sys_open` from syscalls.c.  `filename? = none` models a NULL
pointer.  NULL check, then the free-descriptor scan from index 3, then
inode resolution, then slot initialization. -/
def sys_open (st : SysState) (fsGetInode : Unit → Option Nat)
    (fsGetInodeAfterCreate : Unit → Option Nat)
    (fsCreate : List Char → Nat → Int)
    (filename? : Option (List Char)) (flags mode : Nat) : Int × SysState :=
  match filename? with
  | none => (-14, st)
  | some path =>
      match findFreeFd st.file_table with
      | none => (-24, st)
      | some fd =>
          match openInodeStep fsGetInode fsGetInodeAfterCreate fsCreate
              path flags mode with
          | none => (-2, st)
          | some ino =>
              (Int.ofNat fd,
               { file_table := Function.update st.file_table fd
                  { inode := some ino, offset := 0, flags := flags,
                    mode := mode, ref_count := 1 }
                 current :=
                   match st.current with
                   | none => none
                   | some cp =>
                       some ⟨Function.update cp.open_files fd 1⟩ })

end Sys

/-! ## Buddy allocator (src/kernel/mm/memory.c) -/

namespace Buddy

/-- The fields of `struct page` that the buddy code reads and writes. -/
structure Page where
  ref_count : Nat
  order : Nat
deriving DecidableEq, Repr

/-- The memory state the buddy code touches: the global `page_array`
(indexed by page-frame number) and, for the one zone the free path uses
(`ZONE_NORMAL`, "simplified zone detection"), the per-order intrusive
free lists (modelled as lists of pfns, head first) and the free-page
counter. -/
structure MemState where
  pages : Nat → Page
  free_lists : Nat → List Nat
  free_pages_count : Nat

/-- Unlinking a node from a singly-linked free list in
`buddy_free_pages`: the walk stops at the first node equal to `buddy`
and splices it out (no-op when absent). -/
def removeFirst (l : List Nat) (x : Nat) : List Nat :=
  match l with
  | [] => []
  | y :: ys => if y = x then ys else y :: removeFirst ys x

/-- The coalescing loop of `buddy_free_pages`: while `order < 11`, the
buddy is `pfn XOR (1 << order)`; stop unless the buddy's descriptor has
`ref_count = 0` and the same order; otherwise unlink the buddy from
`free_lists[order]`, keep the lower-numbered frame as head, and go up
one order.  Returns the final free lists, head pfn and order. -/
def coalesce (pages : Nat → Page) (fl : Nat → List Nat) (pfn order : Nat) :
    (Nat → List Nat) × Nat × Nat :=
  if order < 11 then
    let buddy_pfn := pfn ^^^ (1 <<< order)
    let buddy := pages buddy_pfn
    if buddy.ref_count ≠ 0 ∨ buddy.order ≠ order then (fl, pfn, order)
    else
      let fl' := Function.update fl order (removeFirst (fl order) buddy_pfn)
      let pfn' := if pfn > buddy_pfn then buddy_pfn else pfn
      coalesce pages fl' pfn' (order + 1)
  else (fl, pfn, order)
termination_by 11 - order
decreasing_by omega

/-- `buddy_free_pages` from memory.c: coalesce upward, then write the
final order and `ref_count = 0` into the head frame's descriptor, push
the head on `free_lists[order]` and add `2^order` to the free count. -/
def buddy_free_pages (st : MemState) (pfn order : Nat) : MemState :=
  let r := coalesce st.pages st.free_lists pfn order
  let fl' := r.1
  let pfn' := r.2.1
  let order' := r.2.2
  { pages := Function.update st.pages pfn' { ref_count := 0, order := order' }
    free_lists := Function.update fl' order' (pfn' :: fl' order')
    free_pages_count := st.free_pages_count + (1 <<< order') }

/-- The freeing algorithm exactly as §4.1 of the spec words it: the buddy
of a block of order `k` at `frame` is `frame XOR 2^k`; while the buddy is
free and has the same order (bounded by order 11), remove the buddy from
its free list and promote the coalesced block one order, the
lower-numbered frame becoming the head; finally push the block on the
free list of its resulting order.  Written from the spec text, for
comparison with `buddy_free_pages`. -/
def specCoalesce (pages : Nat → Page) (fl : Nat → List Nat) (frame k : Nat) :
    (Nat → List Nat) × Nat × Nat :=
  if k < 11 then
    let buddy := frame ^^^ 2 ^ k
    if (pages buddy).ref_count = 0 ∧ (pages buddy).order = k then
      specCoalesce pages (Function.update fl k (removeFirst (fl k) buddy))
        (min frame buddy) (k + 1)
    else (fl, frame, k)
  else (fl, frame, k)
termination_by 11 - k
decreasing_by omega

/-- Spec-side freeing (§4.1): coalesce per `specCoalesce`, then push the
final block on the free list of its resulting order, marking its head
frame free with that order. -/
def spec_free_pages (st : MemState) (frame k : Nat) : MemState :=
  let r := specCoalesce st.pages st.free_lists frame k
  let fl' := r.1
  let frame' := r.2.1
  let k' := r.2.2
  { pages := Function.update st.pages frame' { ref_count := 0, order := k' }
    free_lists := Function.update fl' k' (frame' :: fl' k')
    free_pages_count := st.free_pages_count + 2 ^ k' }

/-- The splitting loop of `buddy_alloc_pages`: while `current_order >
order`, decrement it and push the high half `page + 2^current_order`
onto `free_lists[current_order]`. -/
def splitDown (fl : Nat → List Nat) (page : Nat) :
    Nat → Nat → (Nat → List Nat)
  | current_order, order =>
      if order < current_order then
        let co := current_order - 1
        let buddy := page + (1 <<< co)
        splitDown (Function.update fl co (buddy :: fl co)) page co order
      else fl
termination_by co _ => co

/-- The search loop of `buddy_alloc_pages`: the first non-empty free list
at order `≥ order` (up to 11). -/
def findBlock (fl : Nat → List Nat) (order : Nat) : Option Nat :=
  (List.range' order (12 - order)).find? (fun k => fl k ≠ [])

/-- `buddy_alloc_pages` from memory.c: take the head of the first
non-empty list of order `≥ order`, split high halves back down to
`order`, mark the returned frame allocated (`ref_count = 1`) with that
order, and subtract `2^order` from the free count. -/
def buddy_alloc_pages (st : MemState) (order : Nat) : Option Nat × MemState :=
  match findBlock st.free_lists order with
  | none => (none, st)
  | some current_order =>
      match st.free_lists current_order with
      | [] => (none, st)
      | page :: tl =>
          let fl1 := Function.update st.free_lists current_order tl
          let fl2 := splitDown fl1 page current_order order
          (some page,
           { pages := Function.update st.pages page { ref_count := 1, order := order }
             free_lists := fl2
             free_pages_count := st.free_pages_count - (1 <<< order) })

end Buddy

/-! ## Key derivation (src/userland/sentinal_send/src/crypto.c:
`derive_key_from_password`) -/

namespace KDF

/-- `memcpy(dst, src, n)` on byte arrays modelled as lists. -/
def memcpyL (dst src : List Nat) (n : Nat) : List Nat :=
  src.take n ++ dst.drop n

/-- `memset(dst + off, v, len)` on a byte array modelled as a list. -/
def memsetL (dst : List Nat) (off v len : Nat) : List Nat :=
  dst.take off ++ List.replicate len v ++ dst.drop (off + len)

/-- The password-mixing loop: `hash[i % 32] ^= password[i]` for each
password byte in order. -/
def mixPassword (hash : List Nat) (password : List Nat) : List Nat :=
  (password.enum).foldl
    (fun h ic => h.set (ic.1 % 32) ((h.getD (ic.1 % 32) 0) ^^^ ic.2)) hash

/-- One mixing round: for `i = 0..31` in order,
`hash[i] = hash[i] ^ hash[(i+1) % 32] ^ (round & 0xFF)` (in place, so
later cells already see this round's updates). -/
def roundStep (hash : List Nat) (round : Nat) : List Nat :=
  (List.range 32).foldl
    (fun h i => h.set i ((h.getD i 0) ^^^ (h.getD ((i + 1) % 32) 0) ^^^ (round &&& 0xFF)))
    hash

/-- `derive_key_from_password` from crypto.c, with the uninitialized
local `uint8_t hash[32]` made explicit as `garbage`: copy the 16 salt
bytes over its front, zero its back half, mix the password in, run 1000
in-place rounds, and copy the 32 resulting bytes out as the key. -/
def derive_key_from_password (password salt garbage : List Nat) : List Nat :=
  ((List.range 1000).foldl roundStep
    (mixPassword (memsetL (memcpyL garbage salt 16) 16 0 16) password)).take 32

end KDF

/-! ## AES-256-CBC (src/userland/sentinal_send/src/crypto.c) -/

namespace AES

/-- The AES S-box table from crypto.c. -/
def sboxL : List Nat := [
  0x63, 0x7C, 0x77, 0x7B, 0xF2, 0x6B, 0x6F, 0xC5, 0x30, 0x01, 0x67, 0x2B, 0xFE, 0xD7, 0xAB, 0x76,
  0xCA, 0x82, 0xC9, 0x7D, 0xFA, 0x59, 0x47, 0xF0, 0xAD, 0xD4, 0xA2, 0xAF, 0x9C, 0xA4, 0x72, 0xC0,
  0xB7, 0xFD, 0x93, 0x26, 0x36, 0x3F, 0xF7, 0xCC, 0x34, 0xA5, 0xE5, 0xF1, 0x71, 0xD8, 0x31, 0x15,
  0x04, 0xC7, 0x23, 0xC3, 0x18, 0x96, 0x05, 0x9A, 0x07, 0x12, 0x80, 0xE2, 0xEB, 0x27, 0xB2, 0x75,
  0x09, 0x83, 0x2C, 0x1A, 0x1B, 0x6E, 0x5A, 0xA0, 0x52, 0x3B, 0xD6, 0xB3, 0x29, 0xE3, 0x2F, 0x84,
  0x53, 0xD1, 0x00, 0xED, 0x20, 0xFC, 0xB1, 0x5B, 0x6A, 0xCB, 0xBE, 0x39, 0x4A, 0x4C, 0x58, 0xCF,
  0xD0, 0xEF, 0xAA, 0xFB, 0x43, 0x4D, 0x33, 0x85, 0x45, 0xF9, 0x02, 0x7F, 0x50, 0x3C, 0x9F, 0xA8,
  0x51, 0xA3, 0x40, 0x8F, 0x92, 0x9D, 0x38, 0xF5, 0xBC, 0xB6, 0xDA, 0x21, 0x10, 0xFF, 0xF3, 0xD2,
  0xCD, 0x0C, 0x13, 0xEC, 0x5F, 0x97, 0x44, 0x17, 0xC4, 0xA7, 0x7E, 0x3D, 0x64, 0x5D, 0x19, 0x73,
  0x60, 0x81, 0x4F, 0xDC, 0x22, 0x2A, 0x90, 0x88, 0x46, 0xEE, 0xB8, 0x14, 0xDE, 0x5E, 0x0B, 0xDB,
  0xE0, 0x32, 0x3A, 0x0A, 0x49, 0x06, 0x24, 0x5C, 0xC2, 0xD3, 0xAC, 0x62, 0x91, 0x95, 0xE4, 0x79,
  0xE7, 0xC8, 0x37, 0x6D, 0x8D, 0xD5, 0x4E, 0xA9, 0x6C, 0x56, 0xF4, 0xEA, 0x65, 0x7A, 0xAE, 0x08,
  0xBA, 0x78, 0x25, 0x2E, 0x1C, 0xA6, 0xB4, 0xC6, 0xE8, 0xDD, 0x74, 0x1F, 0x4B, 0xBD, 0x8B, 0x8A,
  0x70, 0x3E, 0xB5, 0x66, 0x48, 0x03, 0xF6, 0x0E, 0x61, 0x35, 0x57, 0xB9, 0x86, 0xC1, 0x1D, 0x9E,
  0xE1, 0xF8, 0x98, 0x11, 0x69, 0xD9, 0x8E, 0x94, 0x9B, 0x1E, 0x87, 0xE9, 0xCE, 0x55, 0x28, 0xDF,
  0x8C, 0xA1, 0x89, 0x0D, 0xBF, 0xE6, 0x42, 0x68, 0x41, 0x99, 0x2D, 0x0F, 0xB0, 0x54, 0xBB, 0x16
]

/-- The AES inverse S-box table from crypto.c. -/
def invSboxL : List Nat := [
  0x52, 0x09, 0x6A, 0xD5, 0x30, 0x36, 0xA5, 0x38, 0xBF, 0x40, 0xA3, 0x9E, 0x81, 0xF3, 0xD7, 0xFB,
  0x7C, 0xE3, 0x39, 0x82, 0x9B, 0x2F, 0xFF, 0x87, 0x34, 0x8E, 0x43, 0x44, 0xC4, 0xDE, 0xE9, 0xCB,
  0x54, 0x7B, 0x94, 0x32, 0xA6, 0xC2, 0x23, 0x3D, 0xEE, 0x4C, 0x95, 0x0B, 0x42, 0xFA, 0xC3, 0x4E,
  0x08, 0x2E, 0xA1, 0x66, 0x28, 0xD9, 0x24, 0xB2, 0x76, 0x5B, 0xA2, 0x49, 0x6D, 0x8B, 0xD1, 0x25,
  0x72, 0xF8, 0xF6, 0x64, 0x86, 0x68, 0x98, 0x16, 0xD4, 0xA4, 0x5C, 0xCC, 0x5D, 0x65, 0xB6, 0x92,
  0x6C, 0x70, 0x48, 0x50, 0xFD, 0xED, 0xB9, 0xDA, 0x5E, 0x15, 0x46, 0x57, 0xA7, 0x8D, 0x9D, 0x84,
  0x90, 0xD8, 0xAB, 0x00, 0x8C, 0xBC, 0xD3, 0x0A, 0xF7, 0xE4, 0x58, 0x05, 0xB8, 0xB3, 0x45, 0x06,
  0xD0, 0x2C, 0x1E, 0x8F, 0xCA, 0x3F, 0x0F, 0x02, 0xC1, 0xAF, 0xBD, 0x03, 0x01, 0x13, 0x8A, 0x6B,
  0x3A, 0x91, 0x11, 0x41, 0x4F, 0x67, 0xDC, 0xEA, 0x97, 0xF2, 0xCF, 0xCE, 0xF0, 0xB4, 0xE6, 0x73,
  0x96, 0xAC, 0x74, 0x22, 0xE7, 0xAD, 0x35, 0x85, 0xE2, 0xF9, 0x37, 0xE8, 0x1C, 0x75, 0xDF, 0x6E,
  0x47, 0xF1, 0x1A, 0x71, 0x1D, 0x29, 0xC5, 0x89, 0x6F, 0xB7, 0x62, 0x0E, 0xAA, 0x18, 0xBE, 0x1B,
  0xFC, 0x56, 0x3E, 0x4B, 0xC6, 0xD2, 0x79, 0x20, 0x9A, 0xDB, 0xC0, 0xFE, 0x78, 0xCD, 0x5A, 0xF4,
  0x1F, 0xDD, 0xA8, 0x33, 0x88, 0x07, 0xC7, 0x31, 0xB1, 0x12, 0x10, 0x59, 0x27, 0x80, 0xEC, 0x5F,
  0x60, 0x51, 0x7F, 0xA9, 0x19, 0xB5, 0x4A, 0x0D, 0x2D, 0xE5, 0x7A, 0x9F, 0x93, 0xC9, 0x9C, 0xEF,
  0xA0, 0xE0, 0x3B, 0x4D, 0xAE, 0x2A, 0xF5, 0xB0, 0xC8, 0xEB, 0xBB, 0x3C, 0x83, 0x53, 0x99, 0x61,
  0x17, 0x2B, 0x04, 0x7E, 0xBA, 0x77, 0xD6, 0x26, 0xE1, 0x69, 0x14, 0x63, 0x55, 0x21, 0x0C, 0x7D
]

/-- The round-constant table from crypto.c. -/
def rconL : List Nat := [0x00, 0x01, 0x02, 0x04, 0x08, 0x10, 0x20, 0x40, 0x80, 0x1B, 0x36]

/-- S-box lookup (`sbox[n]`). -/
def sboxAt (n : Nat) : Nat := sboxL.getD n 0

/-- Inverse S-box lookup (`inv_sbox[n]`). -/
def invSboxAt (n : Nat) : Nat := invSboxL.getD n 0

/-- Round-constant lookup (`rcon[n]`). -/
def rconAt (n : Nat) : Nat := rconL.getD n 0

/-- A 16-byte AES state, column-major exactly as the C `uint8_t state[16]`:
field `bn` is `state[n]`. -/
structure Block where
  (b0 b1 b2 b3 b4 b5 b6 b7 b8 b9 b10 b11 b12 b13 b14 b15 : Nat)
deriving DecidableEq, Repr

/-- Read a 16-byte state out of a byte list (`memcpy(block, p, 16)`). -/
def toBlock (l : List Nat) : Block :=
  ⟨l.getD 0 0, l.getD 1 0, l.getD 2 0, l.getD 3 0,
   l.getD 4 0, l.getD 5 0, l.getD 6 0, l.getD 7 0,
   l.getD 8 0, l.getD 9 0, l.getD 10 0, l.getD 11 0,
   l.getD 12 0, l.getD 13 0, l.getD 14 0, l.getD 15 0⟩

/-- Write a 16-byte state back to bytes. -/
def blockToList (s : Block) : List Nat :=
  [s.b0, s.b1, s.b2, s.b3, s.b4, s.b5, s.b6, s.b7, s.b8, s.b9, s.b10, s.b11, s.b12, s.b13, s.b14, s.b15]

/-- All 16 bytes of a state are below 256. -/
def Bounded (s : Block) : Prop :=
  s.b0 < 256 ∧ s.b1 < 256 ∧ s.b2 < 256 ∧ s.b3 < 256 ∧ s.b4 < 256 ∧ s.b5 < 256 ∧ s.b6 < 256 ∧ s.b7 < 256 ∧ s.b8 < 256 ∧ s.b9 < 256 ∧ s.b10 < 256 ∧ s.b11 < 256 ∧ s.b12 < 256 ∧ s.b13 < 256 ∧ s.b14 < 256 ∧ s.b15 < 256

/-- `xtime` from crypto.c: multiplication by x in GF(2^8), on a `uint8_t`. -/
def xtime (x : Nat) : Nat := ((x <<< 1) ^^^ (((x >>> 7) &&& 1) * 0x1B)) % 256

/-- `sub_word` from crypto.c. -/
def sub_word (w : Nat) : Nat :=
  (sboxAt (w >>> 24) <<< 24) ||| (sboxAt ((w >>> 16) &&& 0xFF) <<< 16) |||
  (sboxAt ((w >>> 8) &&& 0xFF) <<< 8) ||| sboxAt (w &&& 0xFF)

/-- `rot_word` from crypto.c, on a `uint32_t`. -/
def rot_word (w : Nat) : Nat := ((w <<< 8) % 2 ^ 32) ||| (w >>> 24)

/-- `key_expansion` from crypto.c: 8 initial words from the 32-byte key,
then words 8..59 by the AES-256 schedule. -/
def key_expansion (key : List Nat) : List Nat :=
  let initWords := (List.range 8).map (fun i =>
    (((key.getD (4 * i) 0) <<< 24) ||| ((key.getD (4 * i + 1) 0) <<< 16) |||
     ((key.getD (4 * i + 2) 0) <<< 8) ||| key.getD (4 * i + 3) 0) % 2 ^ 32)
  (List.range' 8 52).foldl (fun ws i =>
    let temp0 := ws.getD (i - 1) 0
    let temp :=
      if i % 8 = 0 then (sub_word (rot_word temp0) ^^^ ((rconAt (i / 8)) <<< 24)) % 2 ^ 32
      else if i % 8 = 4 then sub_word temp0
      else temp0
    ws ++ [((ws.getD (i - 8) 0) ^^^ temp) % 2 ^ 32]) initWords

/-- The four expanded words a round uses, split into the 16 bytes the C
`add_round_key` XORs in: `state[i*4+j] ^= (round_key[i] >> (24-8j)) & 0xFF`. -/
def rkBlock (rks : List Nat) (round : Nat) : Block :=
  let w0 := rks.getD (4 * round) 0
  let w1 := rks.getD (4 * round + 1) 0
  let w2 := rks.getD (4 * round + 2) 0
  let w3 := rks.getD (4 * round + 3) 0
  ⟨(w0 >>> 24) &&& 0xFF, (w0 >>> 16) &&& 0xFF, (w0 >>> 8) &&& 0xFF, w0 &&& 0xFF,
   (w1 >>> 24) &&& 0xFF, (w1 >>> 16) &&& 0xFF, (w1 >>> 8) &&& 0xFF, w1 &&& 0xFF,
   (w2 >>> 24) &&& 0xFF, (w2 >>> 16) &&& 0xFF, (w2 >>> 8) &&& 0xFF, w2 &&& 0xFF,
   (w3 >>> 24) &&& 0xFF, (w3 >>> 16) &&& 0xFF, (w3 >>> 8) &&& 0xFF, w3 &&& 0xFF⟩

/-- `add_round_key` from crypto.c. -/
def add_round_key (s k : Block) : Block :=
  ⟨s.b0 ^^^ k.b0, s.b1 ^^^ k.b1, s.b2 ^^^ k.b2, s.b3 ^^^ k.b3,
   s.b4 ^^^ k.b4, s.b5 ^^^ k.b5, s.b6 ^^^ k.b6, s.b7 ^^^ k.b7,
   s.b8 ^^^ k.b8, s.b9 ^^^ k.b9, s.b10 ^^^ k.b10, s.b11 ^^^ k.b11,
   s.b12 ^^^ k.b12, s.b13 ^^^ k.b13, s.b14 ^^^ k.b14, s.b15 ^^^ k.b15⟩

/-- `sub_bytes` from crypto.c. -/
def sub_bytes (s : Block) : Block :=
  ⟨sboxAt s.b0, sboxAt s.b1, sboxAt s.b2, sboxAt s.b3,
   sboxAt s.b4, sboxAt s.b5, sboxAt s.b6, sboxAt s.b7,
   sboxAt s.b8, sboxAt s.b9, sboxAt s.b10, sboxAt s.b11,
   sboxAt s.b12, sboxAt s.b13, sboxAt s.b14, sboxAt s.b15⟩

/-- `inv_sub_bytes` from crypto.c. -/
def inv_sub_bytes (s : Block) : Block :=
  ⟨invSboxAt s.b0, invSboxAt s.b1, invSboxAt s.b2, invSboxAt s.b3,
   invSboxAt s.b4, invSboxAt s.b5, invSboxAt s.b6, invSboxAt s.b7,
   invSboxAt s.b8, invSboxAt s.b9, invSboxAt s.b10, invSboxAt s.b11,
   invSboxAt s.b12, invSboxAt s.b13, invSboxAt s.b14, invSboxAt s.b15⟩

/-- `shift_rows` from crypto.c. -/
def shift_rows (s : Block) : Block :=
  ⟨s.b0, s.b5, s.b10, s.b15,
   s.b4, s.b9, s.b14, s.b3,
   s.b8, s.b13, s.b2, s.b7,
   s.b12, s.b1, s.b6, s.b11⟩

/-- Modelled from the spec: the repository declares `aes_decrypt_block`
(crypto.h) but implements no inverse ShiftRows; this is the standard
inverse of `shift_rows`. -/
def inv_shift_rows (s : Block) : Block :=
  ⟨s.b0, s.b13, s.b10, s.b7,
   s.b4, s.b1, s.b14, s.b11,
   s.b8, s.b5, s.b2, s.b15,
   s.b12, s.b9, s.b6, s.b3⟩

/-- Column outputs of `mix_columns`, exactly as crypto.c computes them
(`b[j] = xtime(a[j])`; `col[0] = b[0] ^ a[3] ^ a[2] ^ b[1] ^ a[1]`, …). -/
def mc0 (a0 a1 a2 a3 : Nat) : Nat := xtime a0 ^^^ a3 ^^^ a2 ^^^ xtime a1 ^^^ a1
def mc1 (a0 a1 a2 a3 : Nat) : Nat := xtime a1 ^^^ a0 ^^^ a3 ^^^ xtime a2 ^^^ a2
def mc2 (a0 a1 a2 a3 : Nat) : Nat := xtime a2 ^^^ a1 ^^^ a0 ^^^ xtime a3 ^^^ a3
def mc3 (a0 a1 a2 a3 : Nat) : Nat := xtime a3 ^^^ a2 ^^^ a1 ^^^ xtime a0 ^^^ a0

/-- `mix_columns` from crypto.c, acting on each 4-byte column. -/
def mix_columns (s : Block) : Block :=
  ⟨mc0 s.b0 s.b1 s.b2 s.b3, mc1 s.b0 s.b1 s.b2 s.b3, mc2 s.b0 s.b1 s.b2 s.b3, mc3 s.b0 s.b1 s.b2 s.b3,
   mc0 s.b4 s.b5 s.b6 s.b7, mc1 s.b4 s.b5 s.b6 s.b7, mc2 s.b4 s.b5 s.b6 s.b7, mc3 s.b4 s.b5 s.b6 s.b7,
   mc0 s.b8 s.b9 s.b10 s.b11, mc1 s.b8 s.b9 s.b10 s.b11, mc2 s.b8 s.b9 s.b10 s.b11, mc3 s.b8 s.b9 s.b10 s.b11,
   mc0 s.b12 s.b13 s.b14 s.b15, mc1 s.b12 s.b13 s.b14 s.b15, mc2 s.b12 s.b13 s.b14 s.b15, mc3 s.b12 s.b13 s.b14 s.b15⟩

/-- GF(2^8) multiplication by 9, 11, 13 and 14 via `xtime` chains, for
the inverse MixColumns. -/
def mul9 (x : Nat) : Nat := xtime (xtime (xtime x)) ^^^ x
def mul11 (x : Nat) : Nat := xtime (xtime (xtime x)) ^^^ xtime x ^^^ x
def mul13 (x : Nat) : Nat := xtime (xtime (xtime x)) ^^^ xtime (xtime x) ^^^ x
def mul14 (x : Nat) : Nat := xtime (xtime (xtime x)) ^^^ xtime (xtime x) ^^^ xtime x

/-- Column outputs of the standard inverse MixColumns. -/
def imc0 (a0 a1 a2 a3 : Nat) : Nat := mul14 a0 ^^^ mul11 a1 ^^^ mul13 a2 ^^^ mul9 a3
def imc1 (a0 a1 a2 a3 : Nat) : Nat := mul9 a0 ^^^ mul14 a1 ^^^ mul11 a2 ^^^ mul13 a3
def imc2 (a0 a1 a2 a3 : Nat) : Nat := mul13 a0 ^^^ mul9 a1 ^^^ mul14 a2 ^^^ mul11 a3
def imc3 (a0 a1 a2 a3 : Nat) : Nat := mul11 a0 ^^^ mul13 a1 ^^^ mul9 a2 ^^^ mul14 a3

/-- Modelled from the spec: the repository declares `aes_decrypt_block`
(crypto.h) but implements no inverse MixColumns (only the inverse S-box
table is present); this is the standard inverse of `mix_columns`. -/
def inv_mix_columns (s : Block) : Block :=
  ⟨imc0 s.b0 s.b1 s.b2 s.b3, imc1 s.b0 s.b1 s.b2 s.b3, imc2 s.b0 s.b1 s.b2 s.b3, imc3 s.b0 s.b1 s.b2 s.b3,
   imc0 s.b4 s.b5 s.b6 s.b7, imc1 s.b4 s.b5 s.b6 s.b7, imc2 s.b4 s.b5 s.b6 s.b7, imc3 s.b4 s.b5 s.b6 s.b7,
   imc0 s.b8 s.b9 s.b10 s.b11, imc1 s.b8 s.b9 s.b10 s.b11, imc2 s.b8 s.b9 s.b10 s.b11, imc3 s.b8 s.b9 s.b10 s.b11,
   imc0 s.b12 s.b13 s.b14 s.b15, imc1 s.b12 s.b13 s.b14 s.b15, imc2 s.b12 s.b13 s.b14 s.b15, imc3 s.b12 s.b13 s.b14 s.b15⟩

/-- The body of the main-round loop in `aes_encrypt_block`: SubBytes,
ShiftRows, MixColumns, AddRoundKey. -/
def encRound (rk : List Nat) (t : Block) (round : Nat) : Block :=
  add_round_key (mix_columns (shift_rows (sub_bytes t))) (rkBlock rk round)

/-- Modelled from the spec: the body of the main-round loop of standard
AES decryption — AddRoundKey, InvMixColumns, InvShiftRows, InvSubBytes. -/
def decRound (rk : List Nat) (t : Block) (round : Nat) : Block :=
  inv_sub_bytes (inv_shift_rows (inv_mix_columns (add_round_key t (rkBlock rk round))))

/-- `aes_encrypt_block` from crypto.c: initial AddRoundKey, 13 main
rounds, final round without MixColumns (`AES_ROUNDS = 14`). -/
def encryptBlock (rk : List Nat) (pt : Block) : Block :=
  add_round_key
    (shift_rows (sub_bytes
      ((List.range' 1 13).foldl (encRound rk) (add_round_key pt (rkBlock rk 0)))))
    (rkBlock rk 14)

/-- Modelled from the spec: `aes_decrypt_block` is declared in crypto.h
but has no body in the sources ("Decrypt mode not yet implemented");
this is standard AES-256 block decryption, the inverse of
`encryptBlock` round for round. -/
def decryptBlock (rk : List Nat) (ct : Block) : Block :=
  add_round_key
    (((List.range' 1 13).reverse).foldl (decRound rk)
      (inv_sub_bytes (inv_shift_rows (add_round_key ct (rkBlock rk 14)))))
    (rkBlock rk 0)

/-- Bytewise XOR of two states (the CBC chaining step). -/
def xorBlock (a b : Block) : Block := add_round_key a b

/-- The block recursion inside `aes_encrypt_cbc` (crypto.c): XOR with
the previous ciphertext block (or IV), encrypt, chain. -/
def cbcEncBlocks (rk : List Nat) : Block → List Block → List Block
  | _, [] => []
  | prev, b :: bs =>
      let c := encryptBlock rk (xorBlock b prev)
      c :: cbcEncBlocks rk c bs

/-- Modelled from the spec: the block recursion of the declared-only
`aes_decrypt_cbc` — decrypt each block and XOR with the previous
ciphertext block (or IV). -/
def cbcDecBlocks (rk : List Nat) : Block → List Block → List Block
  | _, [] => []
  | prev, c :: cs => xorBlock (decryptBlock rk c) prev :: cbcDecBlocks rk c cs

/-- Fuel-driven worker for `bytesToBlocks` (the fuel is an upper bound
on the byte count, so the recursion is structural and computable). -/
def bytesToBlocksGo (fuel : Nat) (l : List Nat) : List Block :=
  match fuel with
  | 0 => []
  | fuel + 1 => if l = [] then [] else toBlock (l.take 16) :: bytesToBlocksGo fuel (l.drop 16)

/-- Split a byte string into consecutive 16-byte states. -/
def bytesToBlocks (l : List Nat) : List Block := bytesToBlocksGo l.length l

/-- Concatenate 16-byte states back into a byte string. -/
def blocksToBytes (bs : List Block) : List Nat := (bs.map blockToList).flatten

/-- `aes_encrypt_cbc` from crypto.c: fails unless the length is a block
multiple, then CBC-encrypts starting from the context IV. -/
def aes_encrypt_cbc (rk : List Nat) (iv : Block) (ptBytes : List Nat) : Option (List Nat) :=
  if ptBytes.length % 16 ≠ 0 then none
  else some (blocksToBytes (cbcEncBlocks rk iv (bytesToBlocks ptBytes)))

/-- Modelled from the spec: `aes_decrypt_cbc` is declared in crypto.h
but has no body in the sources; mirror of `aes_encrypt_cbc`. -/
def aes_decrypt_cbc (rk : List Nat) (iv : Block) (ctBytes : List Nat) : Option (List Nat) :=
  if ctBytes.length % 16 ≠ 0 then none
  else some (blocksToBytes (cbcDecBlocks rk iv (bytesToBlocks ctBytes)))

end AES

/-! ## Encrypted-file container (src/userland/sentinal_send/src/sentinal_send.c) -/

namespace Container

/-- `struct file_header` from sentinal_send.c (packed, 64 bytes):
magic(8), version(4), classification(1), flags(1), reserved(2),
salt(16), iv(16), original_size(8), checksum(4), header_checksum(4). -/
structure FileHeader where
  classification : Nat
  flags : Nat
  salt : List Nat
  iv : List Nat
  original_size : Nat
  checksum : Nat
  header_checksum : Nat
deriving DecidableEq, Repr

/-- Little-endian encoding of `n` into `w` bytes (x86 struct layout). -/
def le (w n : Nat) : List Nat := (List.range w).map (fun i => (n >>> (8 * i)) &&& 0xFF)

/-- Little-endian decoding of a byte list. -/
def deLE (l : List Nat) : Nat := l.foldr (fun b acc => acc * 256 + b) 0

/-- The bytes of `"SENTINAL"`. -/
def magicBytes : List Nat := [0x53, 0x45, 0x4E, 0x54, 0x49, 0x4E, 0x41, 0x4C]

/-- A fixed 16-byte struct field holding the given bytes. -/
def fixed16 (l : List Nat) : List Nat := l.take 16 ++ List.replicate (16 - l.length) 0

/-- The 64 bytes of a packed `struct file_header` in memory. -/
def serializeHeader (h : FileHeader) : List Nat :=
  magicBytes ++ [1, 0, 0, 0] ++ [h.classification % 256, h.flags % 256] ++ le 2 0 ++
  fixed16 h.salt ++ fixed16 h.iv ++ le 8 h.original_size ++
  le 4 h.checksum ++ le 4 h.header_checksum

/-- `calculate_checksum` from sentinal_send.c:
`checksum = (checksum << 1) ^ data[i]` on a `uint32_t`. -/
def calculate_checksum (data : List Nat) : Nat :=
  data.foldl (fun c d => (((c <<< 1) % 2 ^ 32) ^^^ d) % 2 ^ 32) 0

/-- The padding step of `encrypt_file`: each read chunk is padded up to
the next 16-byte boundary, the fill byte being the pad length
(`memset(buffer + n, pad, pad)`). -/
def padChunk (c : List Nat) : List Nat :=
  let padded := ((c.length + 16 - 1) / 16) * 16
  c ++ List.replicate (padded - c.length) (padded - c.length)

/-- Fuel-driven worker for `chunk8192` (the fuel is an upper bound on
the byte count, so the recursion is structural and computable). -/
def chunkGo (fuel : Nat) (l : List Nat) : List (List Nat) :=
  match fuel with
  | 0 => []
  | fuel + 1 => if l = [] then [] else l.take 8192 :: chunkGo fuel (l.drop 8192)

/-- The `read` loop of `encrypt_file`: the input is consumed in
`BUFFER_SIZE = 8192`-byte chunks (the last one possibly short). -/
def chunk8192 (l : List Nat) : List (List Nat) := chunkGo l.length l

/-- Per-chunk encryption in `encrypt_file`'s loop: pad, then
`aes_encrypt_cbc` — each call restarts the chain at `ctx->iv`, since the
context IV is never advanced between chunks. -/
def encryptChunks (rk : List Nat) (iv : AES.Block) : List (List Nat) → Option (List (List Nat))
  | [] => some []
  | c :: cs =>
      match AES.aes_encrypt_cbc rk iv (padChunk c), encryptChunks rk iv cs with
      | some e, some es => some (e :: es)
      | _, _ => none

/-- Modelled from the spec: the mirror loop of the unimplemented
`decrypt_file` — the ciphertext is processed in 8192-byte chunks, each
decrypted with `aes_decrypt_cbc` from the header IV. -/
def decryptChunks (rk : List Nat) (iv : AES.Block) : List (List Nat) → Option (List (List Nat))
  | [] => some []
  | c :: cs =>
      match AES.aes_decrypt_cbc rk iv c, decryptChunks rk iv cs with
      | some p, some ps => some (p :: ps)
      | _, _ => none

/-- `encrypt_file` from sentinal_send.c as a function of its inputs
(file bytes, password, the salt and IV the random source produced, and
the classification option): build the header, derive the key, compute
the header checksum over `sizeof(header) - sizeof(header.header_checksum)
= 60` bytes, then write header followed by the per-chunk ciphertext.
The payload `checksum` field is never assigned and stays 0 from the
`memset`. -/
def encrypt_file_bytes (password salt iv : List Nat) (classification : Nat)
    (pt : List Nat) : Option (List Nat) :=
  match encryptChunks
      (AES.key_expansion (KDF.derive_key_from_password password salt
        (List.replicate 32 0)))
      (AES.toBlock iv) (chunk8192 pt) with
  | none => none
  | some cs =>
      some (serializeHeader
        { classification := classification, flags := 0x01, salt := salt, iv := iv,
          original_size := pt.length % 2 ^ 64, checksum := 0,
          header_checksum := calculate_checksum ((serializeHeader
            { classification := classification, flags := 0x01, salt := salt,
              iv := iv, original_size := pt.length % 2 ^ 64, checksum := 0,
              header_checksum := 0 }).take 60) } ++ cs.flatten)

/-- Modelled from the spec: `decrypt_file` is not implemented
("Decrypt mode not yet implemented"; `aes_decrypt_cbc` is declared in
crypto.h only).  Per §6 and §8 of the spec, decryption reads the header,
re-derives the key from the password and the stored salt, CBC-decrypts
the ciphertext that follows the header with the stored IV, truncates to
the stored original length, and verifies the recovered payload against
the stored payload checksum (§8 scenario 4: a wrong password "fails the
payload checksum and returns Invalid"); a mismatch returns Invalid
(`none`). -/
def decrypt_container (password container : List Nat) : Option (List Nat) :=
  if container.length < 64 then none
  else
    match decryptChunks
        (AES.key_expansion (KDF.derive_key_from_password password
          (((container.take 64).drop 16).take 16) (List.replicate 32 0)))
        (AES.toBlock (((container.take 64).drop 32).take 16))
        (chunk8192 (container.drop 64)) with
    | none => none
    | some ps =>
        if calculate_checksum
            (ps.flatten.take (deLE (((container.take 64).drop 48).take 8))) =
            deLE (((container.take 64).drop 56).take 4)
        then some (ps.flatten.take (deLE (((container.take 64).drop 48).take 8)))
        else none

end Container

/-! ## Lemma layer -/

namespace AES

theorem bit7_eq (z : Nat) : (z >>> 7) &&& 1 = (z.testBit 7).toNat := by
  rw [Nat.and_one_is_mod, Nat.shiftRight_eq_div_pow, Nat.testBit_to_div_mod]
  have h128 : (2 : ℕ) ^ 7 = 128 := by norm_num
  rw [h128]
  rcases Nat.mod_two_eq_zero_or_one (z / 128) with h | h <;> simp [h]

theorem testBit_mod256 (x i : Nat) : (x % 256).testBit i = (decide (i < 8) && x.testBit i) := by
  have h : (256 : ℕ) = 2 ^ 8 := by norm_num
  rw [h, Nat.testBit_mod_two_pow]

theorem xtime_xor (x y : Nat) : xtime (x ^^^ y) = xtime x ^^^ xtime y := by
  unfold xtime
  rw [bit7_eq, bit7_eq, bit7_eq, Nat.testBit_xor]
  apply Nat.eq_of_testBit_eq
  intro i
  by_cases hx : x.testBit 7 <;> by_cases hy : y.testBit 7 <;>
    by_cases h27 : (27 : Nat).testBit i <;>
    simp [hx, hy, h27, testBit_mod256, Nat.testBit_xor, Nat.testBit_shiftLeft] <;>
    cases hi8 : decide (i < 8) <;>
    cases hi1 : decide (i ≥ 1) <;>
    simp_all <;>
    cases x.testBit (i - 1) <;> cases y.testBit (i - 1) <;> simp_all

theorem xor_left_comm (a b c : Nat) : a ^^^ (b ^^^ c) = b ^^^ (a ^^^ c) := by
  rw [← Nat.xor_assoc, Nat.xor_comm a b, Nat.xor_assoc]

theorem mul9_xor (x y : Nat) : mul9 (x ^^^ y) = mul9 x ^^^ mul9 y := by
  simp only [mul9, xtime_xor]
  simp [Nat.xor_assoc, Nat.xor_comm, xor_left_comm]

theorem mul11_xor (x y : Nat) : mul11 (x ^^^ y) = mul11 x ^^^ mul11 y := by
  simp only [mul11, xtime_xor]
  simp [Nat.xor_assoc, Nat.xor_comm, xor_left_comm]

theorem mul13_xor (x y : Nat) : mul13 (x ^^^ y) = mul13 x ^^^ mul13 y := by
  simp only [mul13, xtime_xor]
  simp [Nat.xor_assoc, Nat.xor_comm, xor_left_comm]

theorem mul14_xor (x y : Nat) : mul14 (x ^^^ y) = mul14 x ^^^ mul14 y := by
  simp only [mul14, xtime_xor]
  simp [Nat.xor_assoc, Nat.xor_comm, xor_left_comm]

theorem mc0_xor (a0 a1 a2 a3 b0 b1 b2 b3 : Nat) :
    mc0 (a0 ^^^ b0) (a1 ^^^ b1) (a2 ^^^ b2) (a3 ^^^ b3) =
      mc0 a0 a1 a2 a3 ^^^ mc0 b0 b1 b2 b3 := by
  simp only [mc0, xtime_xor]
  simp [Nat.xor_assoc, Nat.xor_comm, xor_left_comm]

theorem mc1_xor (a0 a1 a2 a3 b0 b1 b2 b3 : Nat) :
    mc1 (a0 ^^^ b0) (a1 ^^^ b1) (a2 ^^^ b2) (a3 ^^^ b3) =
      mc1 a0 a1 a2 a3 ^^^ mc1 b0 b1 b2 b3 := by
  simp only [mc1, xtime_xor]
  simp [Nat.xor_assoc, Nat.xor_comm, xor_left_comm]

theorem mc2_xor (a0 a1 a2 a3 b0 b1 b2 b3 : Nat) :
    mc2 (a0 ^^^ b0) (a1 ^^^ b1) (a2 ^^^ b2) (a3 ^^^ b3) =
      mc2 a0 a1 a2 a3 ^^^ mc2 b0 b1 b2 b3 := by
  simp only [mc2, xtime_xor]
  simp [Nat.xor_assoc, Nat.xor_comm, xor_left_comm]

theorem mc3_xor (a0 a1 a2 a3 b0 b1 b2 b3 : Nat) :
    mc3 (a0 ^^^ b0) (a1 ^^^ b1) (a2 ^^^ b2) (a3 ^^^ b3) =
      mc3 a0 a1 a2 a3 ^^^ mc3 b0 b1 b2 b3 := by
  simp only [mc3, xtime_xor]
  simp [Nat.xor_assoc, Nat.xor_comm, xor_left_comm]

theorem imc0_xor (a0 a1 a2 a3 b0 b1 b2 b3 : Nat) :
    imc0 (a0 ^^^ b0) (a1 ^^^ b1) (a2 ^^^ b2) (a3 ^^^ b3) =
      imc0 a0 a1 a2 a3 ^^^ imc0 b0 b1 b2 b3 := by
  simp only [imc0, mul9_xor, mul11_xor, mul13_xor, mul14_xor]
  simp [Nat.xor_assoc, Nat.xor_comm, xor_left_comm]

theorem imc1_xor (a0 a1 a2 a3 b0 b1 b2 b3 : Nat) :
    imc1 (a0 ^^^ b0) (a1 ^^^ b1) (a2 ^^^ b2) (a3 ^^^ b3) =
      imc1 a0 a1 a2 a3 ^^^ imc1 b0 b1 b2 b3 := by
  simp only [imc1, mul9_xor, mul11_xor, mul13_xor, mul14_xor]
  simp [Nat.xor_assoc, Nat.xor_comm, xor_left_comm]

theorem imc2_xor (a0 a1 a2 a3 b0 b1 b2 b3 : Nat) :
    imc2 (a0 ^^^ b0) (a1 ^^^ b1) (a2 ^^^ b2) (a3 ^^^ b3) =
      imc2 a0 a1 a2 a3 ^^^ imc2 b0 b1 b2 b3 := by
  simp only [imc2, mul9_xor, mul11_xor, mul13_xor, mul14_xor]
  simp [Nat.xor_assoc, Nat.xor_comm, xor_left_comm]

theorem imc3_xor (a0 a1 a2 a3 b0 b1 b2 b3 : Nat) :
    imc3 (a0 ^^^ b0) (a1 ^^^ b1) (a2 ^^^ b2) (a3 ^^^ b3) =
      imc3 a0 a1 a2 a3 ^^^ imc3 b0 b1 b2 b3 := by
  simp only [imc3, mul9_xor, mul11_xor, mul13_xor, mul14_xor]
  simp [Nat.xor_assoc, Nat.xor_comm, xor_left_comm]

theorem invmix_basis0 : ∀ x < 256,
    imc0 (mc0 x 0 0 0) (mc1 x 0 0 0) (mc2 x 0 0 0) (mc3 x 0 0 0) = x ∧
    imc1 (mc0 x 0 0 0) (mc1 x 0 0 0) (mc2 x 0 0 0) (mc3 x 0 0 0) = 0 ∧
    imc2 (mc0 x 0 0 0) (mc1 x 0 0 0) (mc2 x 0 0 0) (mc3 x 0 0 0) = 0 ∧
    imc3 (mc0 x 0 0 0) (mc1 x 0 0 0) (mc2 x 0 0 0) (mc3 x 0 0 0) = 0 := by decide

theorem invmix_basis1 : ∀ x < 256,
    imc0 (mc0 0 x 0 0) (mc1 0 x 0 0) (mc2 0 x 0 0) (mc3 0 x 0 0) = 0 ∧
    imc1 (mc0 0 x 0 0) (mc1 0 x 0 0) (mc2 0 x 0 0) (mc3 0 x 0 0) = x ∧
    imc2 (mc0 0 x 0 0) (mc1 0 x 0 0) (mc2 0 x 0 0) (mc3 0 x 0 0) = 0 ∧
    imc3 (mc0 0 x 0 0) (mc1 0 x 0 0) (mc2 0 x 0 0) (mc3 0 x 0 0) = 0 := by decide

theorem invmix_basis2 : ∀ x < 256,
    imc0 (mc0 0 0 x 0) (mc1 0 0 x 0) (mc2 0 0 x 0) (mc3 0 0 x 0) = 0 ∧
    imc1 (mc0 0 0 x 0) (mc1 0 0 x 0) (mc2 0 0 x 0) (mc3 0 0 x 0) = 0 ∧
    imc2 (mc0 0 0 x 0) (mc1 0 0 x 0) (mc2 0 0 x 0) (mc3 0 0 x 0) = x ∧
    imc3 (mc0 0 0 x 0) (mc1 0 0 x 0) (mc2 0 0 x 0) (mc3 0 0 x 0) = 0 := by decide

theorem invmix_basis3 : ∀ x < 256,
    imc0 (mc0 0 0 0 x) (mc1 0 0 0 x) (mc2 0 0 0 x) (mc3 0 0 0 x) = 0 ∧
    imc1 (mc0 0 0 0 x) (mc1 0 0 0 x) (mc2 0 0 0 x) (mc3 0 0 0 x) = 0 ∧
    imc2 (mc0 0 0 0 x) (mc1 0 0 0 x) (mc2 0 0 0 x) (mc3 0 0 0 x) = 0 ∧
    imc3 (mc0 0 0 0 x) (mc1 0 0 0 x) (mc2 0 0 0 x) (mc3 0 0 0 x) = x := by decide

end AES

namespace AESx
open AES

theorem sboxAt_lt (n : Nat) : sboxAt n < 256 := by
  by_cases h : n < 256
  · exact (by decide : ∀ m < 256, sboxAt m < 256) n h
  · have hlen : sboxL.length ≤ n := by
      have : sboxL.length = 256 := by rfl
      omega
    unfold sboxAt
    rw [List.getD_eq_default _ _ hlen]
    norm_num

theorem invSboxAt_lt (n : Nat) : invSboxAt n < 256 := by
  by_cases h : n < 256
  · exact (by decide : ∀ m < 256, invSboxAt m < 256) n h
  · have hlen : invSboxL.length ≤ n := by
      have : invSboxL.length = 256 := by rfl
      omega
    unfold invSboxAt
    rw [List.getD_eq_default _ _ hlen]
    norm_num

theorem invSbox_sbox (n : Nat) (h : n < 256) : invSboxAt (sboxAt n) = n :=
  (by decide : ∀ m < 256, invSboxAt (sboxAt m) = m) n h

theorem and255_lt (x : Nat) : x &&& 255 < 256 :=
  Nat.lt_succ_of_le (Nat.and_le_right)

theorem xor_lt256 {a b : Nat} (ha : a < 256) (hb : b < 256) : a ^^^ b < 256 := by
  have h : (256 : ℕ) = 2 ^ 8 := by norm_num
  rw [h] at ha hb ⊢
  exact Nat.xor_lt_two_pow ha hb

theorem xtime_lt (x : Nat) : xtime x < 256 := Nat.mod_lt _ (by norm_num)

theorem inv_shift_shift (s : Block) : inv_shift_rows (shift_rows s) = s := rfl

theorem ark_ark (s k : Block) : add_round_key (add_round_key s k) k = s := by
  cases s; cases k
  simp [add_round_key, Block.mk.injEq, Nat.xor_cancel_right]

end AESx

namespace AESy
open AES AESx

theorem invmix_mix_col (a0 a1 a2 a3 : Nat) (h0 : a0 < 256) (h1 : a1 < 256)
    (h2 : a2 < 256) (h3 : a3 < 256) :
    imc0 (mc0 a0 a1 a2 a3) (mc1 a0 a1 a2 a3) (mc2 a0 a1 a2 a3) (mc3 a0 a1 a2 a3) = a0 ∧
    imc1 (mc0 a0 a1 a2 a3) (mc1 a0 a1 a2 a3) (mc2 a0 a1 a2 a3) (mc3 a0 a1 a2 a3) = a1 ∧
    imc2 (mc0 a0 a1 a2 a3) (mc1 a0 a1 a2 a3) (mc2 a0 a1 a2 a3) (mc3 a0 a1 a2 a3) = a2 ∧
    imc3 (mc0 a0 a1 a2 a3) (mc1 a0 a1 a2 a3) (mc2 a0 a1 a2 a3) (mc3 a0 a1 a2 a3) = a3 := by
  have hm0 : mc0 a0 a1 a2 a3 =
      mc0 a0 0 0 0 ^^^ mc0 0 a1 0 0 ^^^ mc0 0 0 a2 0 ^^^ mc0 0 0 0 a3 := by
    rw [← mc0_xor, ← mc0_xor, ← mc0_xor]; norm_num
  have hm1 : mc1 a0 a1 a2 a3 =
      mc1 a0 0 0 0 ^^^ mc1 0 a1 0 0 ^^^ mc1 0 0 a2 0 ^^^ mc1 0 0 0 a3 := by
    rw [← mc1_xor, ← mc1_xor, ← mc1_xor]; norm_num
  have hm2 : mc2 a0 a1 a2 a3 =
      mc2 a0 0 0 0 ^^^ mc2 0 a1 0 0 ^^^ mc2 0 0 a2 0 ^^^ mc2 0 0 0 a3 := by
    rw [← mc2_xor, ← mc2_xor, ← mc2_xor]; norm_num
  have hm3 : mc3 a0 a1 a2 a3 =
      mc3 a0 0 0 0 ^^^ mc3 0 a1 0 0 ^^^ mc3 0 0 a2 0 ^^^ mc3 0 0 0 a3 := by
    rw [← mc3_xor, ← mc3_xor, ← mc3_xor]; norm_num
  obtain ⟨c00, c01, c02, c03⟩ := invmix_basis0 a0 h0
  obtain ⟨c10, c11, c12, c13⟩ := invmix_basis1 a1 h1
  obtain ⟨c20, c21, c22, c23⟩ := invmix_basis2 a2 h2
  obtain ⟨c30, c31, c32, c33⟩ := invmix_basis3 a3 h3
  refine ⟨?_, ?_, ?_, ?_⟩
  · rw [hm0, hm1, hm2, hm3, imc0_xor, imc0_xor, imc0_xor, c00, c10, c20, c30]; norm_num
  · rw [hm0, hm1, hm2, hm3, imc1_xor, imc1_xor, imc1_xor, c01, c11, c21, c31]; norm_num
  · rw [hm0, hm1, hm2, hm3, imc2_xor, imc2_xor, imc2_xor, c02, c12, c22, c32]; norm_num
  · rw [hm0, hm1, hm2, hm3, imc3_xor, imc3_xor, imc3_xor, c03, c13, c23, c33]; norm_num

end AESy

namespace AESz
open AES AESx AESy

theorem inv_mix_mix (s : Block) (hb : Bounded s) :
    inv_mix_columns (mix_columns s) = s := by
  obtain ⟨b0, b1, b2, b3, b4, b5, b6, b7, b8, b9, b10, b11, b12, b13, b14, b15⟩ := s
  obtain ⟨h0, h1, h2, h3, h4, h5, h6, h7, h8, h9, h10, h11, h12, h13, h14, h15⟩ := hb
  obtain ⟨d0, d1, d2, d3⟩ := invmix_mix_col b0 b1 b2 b3 h0 h1 h2 h3
  obtain ⟨e0, e1, e2, e3⟩ := invmix_mix_col b4 b5 b6 b7 h4 h5 h6 h7
  obtain ⟨f0, f1, f2, f3⟩ := invmix_mix_col b8 b9 b10 b11 h8 h9 h10 h11
  obtain ⟨g0, g1, g2, g3⟩ := invmix_mix_col b12 b13 b14 b15 h12 h13 h14 h15
  simp only [mix_columns, inv_mix_columns, Block.mk.injEq]
  exact ⟨d0, d1, d2, d3, e0, e1, e2, e3, f0, f1, f2, f3, g0, g1, g2, g3⟩

theorem inv_sub_sub (s : Block) (hb : Bounded s) :
    inv_sub_bytes (sub_bytes s) = s := by
  obtain ⟨b0, b1, b2, b3, b4, b5, b6, b7, b8, b9, b10, b11, b12, b13, b14, b15⟩ := s
  obtain ⟨h0, h1, h2, h3, h4, h5, h6, h7, h8, h9, h10, h11, h12, h13, h14, h15⟩ := hb
  simp only [sub_bytes, inv_sub_bytes, Block.mk.injEq]
  exact ⟨invSbox_sbox _ h0, invSbox_sbox _ h1, invSbox_sbox _ h2, invSbox_sbox _ h3,
    invSbox_sbox _ h4, invSbox_sbox _ h5, invSbox_sbox _ h6, invSbox_sbox _ h7,
    invSbox_sbox _ h8, invSbox_sbox _ h9, invSbox_sbox _ h10, invSbox_sbox _ h11,
    invSbox_sbox _ h12, invSbox_sbox _ h13, invSbox_sbox _ h14, invSbox_sbox _ h15⟩

theorem sub_bytes_bounded (s : Block) : Bounded (sub_bytes s) := by
  obtain ⟨b0, b1, b2, b3, b4, b5, b6, b7, b8, b9, b10, b11, b12, b13, b14, b15⟩ := s
  exact ⟨sboxAt_lt _, sboxAt_lt _, sboxAt_lt _, sboxAt_lt _, sboxAt_lt _, sboxAt_lt _,
    sboxAt_lt _, sboxAt_lt _, sboxAt_lt _, sboxAt_lt _, sboxAt_lt _, sboxAt_lt _,
    sboxAt_lt _, sboxAt_lt _, sboxAt_lt _, sboxAt_lt _⟩

theorem shift_rows_bounded (s : Block) (hb : Bounded s) : Bounded (shift_rows s) := by
  obtain ⟨b0, b1, b2, b3, b4, b5, b6, b7, b8, b9, b10, b11, b12, b13, b14, b15⟩ := s
  obtain ⟨h0, h1, h2, h3, h4, h5, h6, h7, h8, h9, h10, h11, h12, h13, h14, h15⟩ := hb
  exact ⟨h0, h5, h10, h15, h4, h9, h14, h3, h8, h13, h2, h7, h12, h1, h6, h11⟩

theorem mc_lt {a0 a1 a2 a3 : Nat} (h0 : a0 < 256) (h1 : a1 < 256) (h2 : a2 < 256)
    (h3 : a3 < 256) :
    mc0 a0 a1 a2 a3 < 256 ∧ mc1 a0 a1 a2 a3 < 256 ∧
    mc2 a0 a1 a2 a3 < 256 ∧ mc3 a0 a1 a2 a3 < 256 :=
  ⟨xor_lt256 (xor_lt256 (xor_lt256 (xor_lt256 (xtime_lt _) h3) h2) (xtime_lt _)) h1,
   xor_lt256 (xor_lt256 (xor_lt256 (xor_lt256 (xtime_lt _) h0) h3) (xtime_lt _)) h2,
   xor_lt256 (xor_lt256 (xor_lt256 (xor_lt256 (xtime_lt _) h1) h0) (xtime_lt _)) h3,
   xor_lt256 (xor_lt256 (xor_lt256 (xor_lt256 (xtime_lt _) h2) h1) (xtime_lt _)) h0⟩

theorem mix_columns_bounded (s : Block) (hb : Bounded s) : Bounded (mix_columns s) := by
  obtain ⟨b0, b1, b2, b3, b4, b5, b6, b7, b8, b9, b10, b11, b12, b13, b14, b15⟩ := s
  obtain ⟨h0, h1, h2, h3, h4, h5, h6, h7, h8, h9, h10, h11, h12, h13, h14, h15⟩ := hb
  obtain ⟨d0, d1, d2, d3⟩ := mc_lt h0 h1 h2 h3
  obtain ⟨e0, e1, e2, e3⟩ := mc_lt h4 h5 h6 h7
  obtain ⟨f0, f1, f2, f3⟩ := mc_lt h8 h9 h10 h11
  obtain ⟨g0, g1, g2, g3⟩ := mc_lt h12 h13 h14 h15
  exact ⟨d0, d1, d2, d3, e0, e1, e2, e3, f0, f1, f2, f3, g0, g1, g2, g3⟩

theorem rkBlock_bounded (rks : List Nat) (round : Nat) : Bounded (rkBlock rks round) :=
  ⟨and255_lt _, and255_lt _, and255_lt _, and255_lt _, and255_lt _, and255_lt _,
   and255_lt _, and255_lt _, and255_lt _, and255_lt _, and255_lt _, and255_lt _,
   and255_lt _, and255_lt _, and255_lt _, and255_lt _⟩

theorem add_round_key_bounded (s k : Block) (hs : Bounded s) (hk : Bounded k) :
    Bounded (add_round_key s k) := by
  obtain ⟨b0, b1, b2, b3, b4, b5, b6, b7, b8, b9, b10, b11, b12, b13, b14, b15⟩ := s
  obtain ⟨c0, c1, c2, c3, c4, c5, c6, c7, c8, c9, c10, c11, c12, c13, c14, c15⟩ := k
  obtain ⟨h0, h1, h2, h3, h4, h5, h6, h7, h8, h9, h10, h11, h12, h13, h14, h15⟩ := hs
  obtain ⟨g0, g1, g2, g3, g4, g5, g6, g7, g8, g9, g10, g11, g12, g13, g14, g15⟩ := hk
  exact ⟨xor_lt256 h0 g0, xor_lt256 h1 g1, xor_lt256 h2 g2, xor_lt256 h3 g3,
    xor_lt256 h4 g4, xor_lt256 h5 g5, xor_lt256 h6 g6, xor_lt256 h7 g7,
    xor_lt256 h8 g8, xor_lt256 h9 g9, xor_lt256 h10 g10, xor_lt256 h11 g11,
    xor_lt256 h12 g12, xor_lt256 h13 g13, xor_lt256 h14 g14, xor_lt256 h15 g15⟩

theorem encRound_bounded (rk : List Nat) (t : Block) (round : Nat) :
    Bounded (encRound rk t round) :=
  add_round_key_bounded _ _
    (mix_columns_bounded _ (shift_rows_bounded _ (sub_bytes_bounded _)))
    (rkBlock_bounded _ _)

theorem decRound_encRound (rk : List Nat) (t : Block) (round : Nat) (hb : Bounded t) :
    decRound rk (encRound rk t round) round = t := by
  unfold decRound encRound
  rw [ark_ark, inv_mix_mix _ (shift_rows_bounded _ (sub_bytes_bounded _)),
    inv_shift_shift, inv_sub_sub _ hb]

theorem foldl_encRound_bounded (rk : List Nat) (ks : List Nat) (s : Block)
    (hs : Bounded s) : Bounded (ks.foldl (encRound rk) s) := by
  induction ks generalizing s with
  | nil => exact hs
  | cons k ks ih => exact ih _ (encRound_bounded rk s k)

theorem foldl_rounds_inv (rk : List Nat) (ks : List Nat) (s : Block) (hs : Bounded s) :
    (ks.reverse).foldl (decRound rk) (ks.foldl (encRound rk) s) = s := by
  induction ks using List.reverseRecOn generalizing s with
  | nil => simp
  | append_singleton ks k ih =>
      rw [List.foldl_append, List.reverse_append]
      simp only [List.reverse_singleton, List.singleton_append, List.foldl_cons,
        List.foldl_nil]
      rw [decRound_encRound rk _ k (foldl_encRound_bounded rk ks s hs)]
      exact ih s hs

theorem decryptBlock_encryptBlock (rk : List Nat) (pt : Block) (hb : Bounded pt) :
    decryptBlock rk (encryptBlock rk pt) = pt := by
  have hb0 : Bounded (add_round_key pt (rkBlock rk 0)) :=
    add_round_key_bounded _ _ hb (rkBlock_bounded _ _)
  have hb1 : Bounded
      ((List.range' 1 13).foldl (encRound rk) (add_round_key pt (rkBlock rk 0))) :=
    foldl_encRound_bounded _ _ _ hb0
  show add_round_key
      ((List.range' 1 13).reverse.foldl (decRound rk)
        (inv_sub_bytes (inv_shift_rows
          (add_round_key
            (add_round_key
              (shift_rows (sub_bytes
                ((List.range' 1 13).foldl (encRound rk) (add_round_key pt (rkBlock rk 0)))))
              (rkBlock rk 14))
            (rkBlock rk 14)))))
      (rkBlock rk 0) = pt
  rw [ark_ark, inv_shift_shift, inv_sub_sub _ hb1, foldl_rounds_inv rk _ _ hb0, ark_ark]

theorem encryptBlock_bounded (rk : List Nat) (pt : Block) : Bounded (encryptBlock rk pt) := by
  unfold encryptBlock
  exact add_round_key_bounded _ _
    (shift_rows_bounded _ (sub_bytes_bounded _)) (rkBlock_bounded _ _)

end AESz

namespace CBC
open AES AESx AESz

theorem blockToList_toBlock (m : List Nat) (hm : m.length = 16) :
    blockToList (toBlock m) = m :=
  match m, hm with
  | [_a0,_a1,_a2,_a3,_a4,_a5,_a6,_a7,_a8,_a9,_a10,_a11,_a12,_a13,_a14,_a15], _ => rfl

theorem toBlock_blockToList (b : Block) : toBlock (blockToList b) = b := rfl

theorem blockToList_length (b : Block) : (blockToList b).length = 16 := rfl

theorem getD_lt (l : List Nat) (hl : ∀ x ∈ l, x < 256) (n : Nat) : l.getD n 0 < 256 := by
  by_cases h : n < l.length
  · rw [List.getD_eq_getElem l 0 h]
    exact hl _ (l.getElem_mem h)
  · rw [List.getD_eq_default l 0 (by omega)]
    norm_num

theorem toBlock_bounded (l : List Nat) (hl : ∀ x ∈ l, x < 256) : Bounded (toBlock l) :=
  ⟨getD_lt l hl 0, getD_lt l hl 1, getD_lt l hl 2, getD_lt l hl 3,
   getD_lt l hl 4, getD_lt l hl 5, getD_lt l hl 6, getD_lt l hl 7,
   getD_lt l hl 8, getD_lt l hl 9, getD_lt l hl 10, getD_lt l hl 11,
   getD_lt l hl 12, getD_lt l hl 13, getD_lt l hl 14, getD_lt l hl 15⟩

theorem bytesToBlocksGo_congr : ∀ (f1 f2 : Nat) (l : List Nat),
    l.length ≤ f1 → l.length ≤ f2 → bytesToBlocksGo f1 l = bytesToBlocksGo f2 l := by
  intro f1
  induction f1 with
  | zero =>
      intro f2 l h1 _
      have : l = [] := List.length_eq_zero.mp (by omega)
      subst this
      cases f2 <;> simp [bytesToBlocksGo]
  | succ f1 ih =>
      intro f2 l h1 h2
      by_cases h : l = []
      · subst h
        cases f2 <;> simp [bytesToBlocksGo]
      · have hpos : 0 < l.length :=
          Nat.pos_of_ne_zero (fun h0 => h (List.length_eq_zero.mp h0))
        cases f2 with
        | zero => omega
        | succ f2 =>
            simp only [bytesToBlocksGo, h, if_false]
            rw [ih f2 (l.drop 16) (by simp [List.length_drop]; omega)
              (by simp [List.length_drop]; omega)]

theorem bytesToBlocks_nil : bytesToBlocks [] = [] := rfl

theorem bytesToBlocks_cons (l : List Nat) (h : l ≠ []) :
    bytesToBlocks l = toBlock (l.take 16) :: bytesToBlocks (l.drop 16) := by
  have hpos : 0 < l.length :=
    Nat.pos_of_ne_zero (fun h0 => h (List.length_eq_zero.mp h0))
  obtain ⟨n, hn⟩ : ∃ n, l.length = n + 1 := ⟨l.length - 1, by omega⟩
  unfold bytesToBlocks
  rw [hn]
  simp only [bytesToBlocksGo, h, if_false]
  rw [bytesToBlocksGo_congr n (l.drop 16).length (l.drop 16)
    (by simp [List.length_drop]; omega) (le_refl _)]

theorem blocksToBytes_nil : blocksToBytes [] = [] := rfl

theorem blocksToBytes_cons (b : Block) (bs : List Block) :
    blocksToBytes (b :: bs) = blockToList b ++ blocksToBytes bs := by
  simp [blocksToBytes]

theorem bytesToBlocks_blocksToBytes (bs : List Block) :
    bytesToBlocks (blocksToBytes bs) = bs := by
  induction bs with
  | nil => simp [blocksToBytes_nil, bytesToBlocks_nil]
  | cons b bs ih =>
      rw [blocksToBytes_cons,
        bytesToBlocks_cons _ (by simp [blockToList]),
        List.take_left' (blockToList_length b),
        List.drop_left' (blockToList_length b),
        toBlock_blockToList, ih]

theorem blocksToBytes_bytesToBlocks : ∀ (n : Nat) (l : List Nat), l.length = n →
    l.length % 16 = 0 → blocksToBytes (bytesToBlocks l) = l := by
  intro n
  induction n using Nat.strong_induction_on with
  | _ n ih =>
      intro l hn hl
      by_cases h : l = []
      · subst h; simp [bytesToBlocks_nil, blocksToBytes_nil]
      · have hpos : 0 < l.length :=
          Nat.pos_of_ne_zero (fun h0 => h (List.length_eq_zero.mp h0))
      
        have hlen : 16 ≤ l.length := by omega
        rw [bytesToBlocks_cons _ h, blocksToBytes_cons,
          blockToList_toBlock _ (by rw [List.length_take]; omega)]
        rw [ih (l.drop 16).length (by simp [List.length_drop]; omega) _ rfl
          (by simp [List.length_drop]; omega)]
        exact List.take_append_drop 16 l

theorem bytesToBlocks_bounded : ∀ (n : Nat) (l : List Nat), l.length = n →
    (∀ x ∈ l, x < 256) → ∀ b ∈ bytesToBlocks l, Bounded b := by
  intro n
  induction n using Nat.strong_induction_on with
  | _ n ih =>
      intro l hn hl
      by_cases h : l = []
      · subst h; simp [bytesToBlocks_nil]
      · rw [bytesToBlocks_cons _ h]
        intro b hb
        rcases List.mem_cons.mp hb with rfl | hmem
        · exact toBlock_bounded _ (fun x hx => hl x (List.take_subset 16 l hx))
        · subst hn
          exact ih (l.drop 16).length
            (by
              simp only [List.length_drop]
              exact Nat.sub_lt (Nat.pos_of_ne_zero
                (fun h0 => h (List.length_eq_zero.mp h0))) (by omega))
            (l.drop 16) rfl (fun x hx => hl x (List.drop_subset 16 l hx)) b hmem

theorem cbcDec_cbcEnc (rk : List Nat) :
    ∀ (bs : List Block) (prev : Block), (∀ b ∈ bs, Bounded b) → Bounded prev →
      cbcDecBlocks rk prev (cbcEncBlocks rk prev bs) = bs := by
  intro bs
  induction bs with
  | nil => intro prev _ _; rfl
  | cons b bs ih =>
      intro prev hbs hprev
      show cbcDecBlocks rk prev
          (encryptBlock rk (xorBlock b prev) ::
            cbcEncBlocks rk (encryptBlock rk (xorBlock b prev)) bs) = b :: bs
      show xorBlock (decryptBlock rk (encryptBlock rk (xorBlock b prev))) prev ::
          cbcDecBlocks rk (encryptBlock rk (xorBlock b prev))
            (cbcEncBlocks rk (encryptBlock rk (xorBlock b prev)) bs) = b :: bs
      have hb : Bounded b := hbs b (List.mem_cons_self b bs)
      have hxb : Bounded (xorBlock b prev) := add_round_key_bounded b prev hb hprev
      rw [decryptBlock_encryptBlock rk (xorBlock b prev) hxb]
      have hxx : xorBlock (xorBlock b prev) prev = b := ark_ark b prev
      rw [hxx, ih (encryptBlock rk (xorBlock b prev))
        (fun x hx => hbs x (List.mem_cons_of_mem b hx)) (encryptBlock_bounded rk _)]

theorem cbcEncBlocks_length (rk : List Nat) (bs : List Block) (prev : Block) :
    (cbcEncBlocks rk prev bs).length = bs.length := by
  induction bs generalizing prev with
  | nil => rfl
  | cons b bs ih => simp [cbcEncBlocks, ih]

theorem blocksToBytes_length (bs : List Block) :
    (blocksToBytes bs).length = 16 * bs.length := by
  induction bs with
  | nil => rfl
  | cons b bs ih => simp [blocksToBytes_cons, ih, blockToList_length]; ring

end CBC

namespace ContainerP
open AES AESx AESz CBC Container

theorem and255_mod (x : Nat) : x &&& 255 = x % 256 := by
  apply Nat.eq_of_testBit_eq
  intro i
  have h : (255 : Nat) = 2 ^ 8 - 1 := by norm_num
  have h2 : (256 : Nat) = 2 ^ 8 := by norm_num
  rw [h, h2, Nat.testBit_and, Nat.testBit_mod_two_pow, Nat.testBit_two_pow_sub_one,
    Bool.and_comm]

theorem padChunk_def (c : List Nat) :
    padChunk c = c ++ List.replicate (((c.length + 15) / 16) * 16 - c.length)
      (((c.length + 15) / 16) * 16 - c.length) := rfl

theorem padChunk_length (c : List Nat) :
    (padChunk c).length = ((c.length + 15) / 16) * 16 := by
  simp only [padChunk_def, List.length_append, List.length_replicate]
  omega

theorem padChunk_mod (c : List Nat) : (padChunk c).length % 16 = 0 := by
  rw [padChunk_length]
  exact Nat.mul_mod_left _ _

theorem padChunk_eq_self (c : List Nat) (h : c.length % 16 = 0) : padChunk c = c := by
  rw [padChunk_def]
  have : ((c.length + 15) / 16) * 16 = c.length := by omega
  simp [this]

theorem padChunk_bytes (c : List Nat) (hc : ∀ x ∈ c, x < 256) :
    ∀ x ∈ padChunk c, x < 256 := by
  intro x hx
  rw [padChunk_def] at hx
  rcases List.mem_append.mp hx with h | h
  · exact hc x h
  · have := List.eq_of_mem_replicate h
    subst this
    omega

theorem padChunk_pos (c : List Nat) (h : c ≠ []) : (padChunk c).length ≠ 0 := by
  rw [padChunk_length]
  have : 0 < c.length := Nat.pos_of_ne_zero (fun h0 => h (List.length_eq_zero.mp h0))
  omega

theorem chunkGo_congr : ∀ (f1 f2 : Nat) (l : List Nat),
    l.length ≤ f1 → l.length ≤ f2 → chunkGo f1 l = chunkGo f2 l := by
  intro f1
  induction f1 with
  | zero =>
      intro f2 l h1 _
      have : l = [] := List.length_eq_zero.mp (by omega)
      subst this
      cases f2 <;> simp [chunkGo]
  | succ f1 ih =>
      intro f2 l h1 h2
      by_cases h : l = []
      · subst h
        cases f2 <;> simp [chunkGo]
      · have hpos : 0 < l.length :=
          Nat.pos_of_ne_zero (fun h0 => h (List.length_eq_zero.mp h0))
        cases f2 with
        | zero => omega
        | succ f2 =>
            simp only [chunkGo, h, if_false]
            rw [ih f2 (l.drop 8192) (by simp [List.length_drop]; omega)
              (by simp [List.length_drop]; omega)]

theorem chunk8192_nil : chunk8192 [] = [] := rfl

theorem chunk8192_cons (l : List Nat) (h : l ≠ []) :
    chunk8192 l = l.take 8192 :: chunk8192 (l.drop 8192) := by
  have hpos : 0 < l.length :=
    Nat.pos_of_ne_zero (fun h0 => h (List.length_eq_zero.mp h0))
  obtain ⟨n, hn⟩ : ∃ n, l.length = n + 1 := ⟨l.length - 1, by omega⟩
  unfold chunk8192
  rw [hn]
  simp only [chunkGo, h, if_false]
  rw [chunkGo_congr n (l.drop 8192).length (l.drop 8192)
    (by simp [List.length_drop]; omega) (le_refl _)]

theorem chunk8192_singleton (l : List Nat) (h : l ≠ []) (hlen : l.length ≤ 8192) :
    chunk8192 l = [l] := by
  rw [chunk8192_cons _ h, List.take_of_length_le hlen,
    List.drop_eq_nil_of_le hlen, chunk8192_nil]

theorem chunk8192_append (x rest : List Nat) (hx : x.length = 8192) :
    chunk8192 (x ++ rest) = x :: chunk8192 rest := by
  have hne : x ++ rest ≠ [] := by
    intro h0
    have := congrArg List.length h0
    simp [hx] at this
  rw [chunk8192_cons _ hne, List.take_left' hx, List.drop_left' hx]

theorem bytesToBlocks_count : ∀ (n : Nat) (l : List Nat), l.length = n →
    l.length % 16 = 0 → (bytesToBlocks l).length = l.length / 16 := by
  intro n
  induction n using Nat.strong_induction_on with
  | _ n ih =>
      intro l hn hl
      by_cases h : l = []
      · subst h; simp [bytesToBlocks_nil]
      · have hpos : 0 < l.length :=
          Nat.pos_of_ne_zero (fun h0 => h (List.length_eq_zero.mp h0))
        have hlen : 16 ≤ l.length := by omega
        rw [bytesToBlocks_cons _ h]
        rw [List.length_cons,
          ih (l.drop 16).length (by simp [List.length_drop]; omega) _ rfl
            (by simp [List.length_drop]; omega)]
        simp only [List.length_drop]
        omega

theorem aes_enc_some (rk : List Nat) (iv : Block) (x : List Nat)
    (h : x.length % 16 = 0) :
    aes_encrypt_cbc rk iv x =
      some (blocksToBytes (cbcEncBlocks rk iv (bytesToBlocks x))) := by
  simp [aes_encrypt_cbc, h]

theorem aes_enc_length (rk : List Nat) (iv : Block) (x : List Nat)
    (h : x.length % 16 = 0) :
    (blocksToBytes (cbcEncBlocks rk iv (bytesToBlocks x))).length = x.length := by
  rw [blocksToBytes_length, cbcEncBlocks_length,
    bytesToBlocks_count x.length x rfl h]
  omega

theorem aes_dec_of_enc (rk : List Nat) (iv : Block) (x : List Nat)
    (hx : x.length % 16 = 0) (hb : ∀ y ∈ x, y < 256) (hiv : Bounded iv) :
    aes_decrypt_cbc rk iv (blocksToBytes (cbcEncBlocks rk iv (bytesToBlocks x))) =
      some x := by
  have hlen := aes_enc_length rk iv x hx
  unfold aes_decrypt_cbc
  rw [if_neg (by rw [hlen]; omega)]
  rw [bytesToBlocks_blocksToBytes,
    cbcDec_cbcEnc rk _ _ (bytesToBlocks_bounded x.length x rfl hb) hiv,
    blocksToBytes_bytesToBlocks x.length x rfl hx]

end ContainerP

namespace ContainerQ
open AES AESx AESz CBC Container ContainerP

theorem chunks_roundtrip (rk : List Nat) (iv : Block) (hiv : Bounded iv) :
    ∀ (n : Nat) (l : List Nat), l.length = n → (∀ x ∈ l, x < 256) →
      ∃ cs, encryptChunks rk iv (chunk8192 l) = some cs ∧
        chunk8192 cs.flatten = cs ∧
        decryptChunks rk iv cs = some ((chunk8192 l).map padChunk) ∧
        (((chunk8192 l).map padChunk).flatten).take l.length = l := by
  intro n
  induction n using Nat.strong_induction_on with
  | _ n ih =>
      intro l hn hl
      by_cases h : l = []
      · subst h
        exact ⟨[], by simp [chunk8192_nil, encryptChunks], by simp [chunk8192_nil],
          by simp [chunk8192_nil, decryptChunks], by simp [chunk8192_nil]⟩
      · have hpos : 0 < l.length :=
          Nat.pos_of_ne_zero (fun h0 => h (List.length_eq_zero.mp h0))
        by_cases hle : l.length ≤ 8192
        · -- single (final) chunk
          have hchunk : chunk8192 l = [l] := chunk8192_singleton l h hle
          have hpadb : ∀ x ∈ padChunk l, x < 256 := padChunk_bytes l hl
          have hpmod := padChunk_mod l
          set eb := blocksToBytes (cbcEncBlocks rk iv (bytesToBlocks (padChunk l))) with heb
          have heblen : eb.length = (padChunk l).length := aes_enc_length rk iv _ hpmod
          have hebne : eb ≠ [] := by
            intro h0
            have := congrArg List.length h0
            rw [heblen] at this
            exact padChunk_pos l h (by simpa using this)
          have heble : eb.length ≤ 8192 := by
            rw [heblen, padChunk_length]
            omega
          refine ⟨[eb], ?_, ?_, ?_, ?_⟩
          · simp only [hchunk, encryptChunks, aes_enc_some rk iv _ hpmod, ← heb]
          · simp only [List.flatten, List.append_nil]
            exact chunk8192_singleton eb hebne heble
          · simp only [decryptChunks, heb, aes_dec_of_enc rk iv _ hpmod hpadb hiv, hchunk,
              List.map_cons, List.map_nil]
          · rw [hchunk]
            simp only [List.map_cons, List.map_nil, List.flatten, List.append_nil]
            rw [padChunk_def]
            rw [List.take_append_eq_append_take, List.take_of_length_le (by omega),
              List.take_replicate]
            simp
        · -- a full 8192-byte chunk followed by the rest
          push_neg at hle
          have htake : (l.take 8192).length = 8192 := by
            rw [List.length_take]; omega
          have htmod : (l.take 8192).length % 16 = 0 := by rw [htake]
          have hpadt : padChunk (l.take 8192) = l.take 8192 :=
            padChunk_eq_self _ htmod
          have htb : ∀ x ∈ l.take 8192, x < 256 :=
            fun x hx => hl x (List.take_subset 8192 l hx)
          have hdb : ∀ x ∈ l.drop 8192, x < 256 :=
            fun x hx => hl x (List.drop_subset 8192 l hx)
          have hdlen : (l.drop 8192).length < n := by
            rw [List.length_drop]; omega
          obtain ⟨cs', henc', hresplit', hdec', htake'⟩ :=
            ih (l.drop 8192).length hdlen (l.drop 8192) rfl hdb
          have hchunk : chunk8192 l = l.take 8192 :: chunk8192 (l.drop 8192) :=
            chunk8192_cons l h
          set eb := blocksToBytes (cbcEncBlocks rk iv (bytesToBlocks (l.take 8192)))
            with heb
          have heblen : eb.length = 8192 := by
            rw [heb, aes_enc_length rk iv _ htmod, htake]
          refine ⟨eb :: cs', ?_, ?_, ?_, ?_⟩
          · simp only [hchunk, encryptChunks, hpadt, aes_enc_some rk iv _ htmod, ← heb,
              henc']
          · rw [List.flatten_cons, chunk8192_append eb cs'.flatten heblen, hresplit']
          · simp only [decryptChunks, heb, aes_dec_of_enc rk iv _ htmod htb hiv, hdec',
              hchunk, List.map_cons, hpadt]
          · rw [hchunk]
            simp only [List.map_cons, List.flatten_cons, hpadt]
            rw [List.take_append_eq_append_take, List.take_of_length_le (by omega)]
            have : l.length - (l.take 8192).length = (l.drop 8192).length := by
              rw [htake, List.length_drop]
            rw [this, htake']
            exact List.take_append_drop 8192 l

end ContainerQ

namespace ContainerR
open AES AESx CBC Container ContainerP ContainerQ

theorem le_length (w n : Nat) : (le w n).length = w := by
  simp [le]

theorem deLE_le8 (n : Nat) : deLE (le 8 n) = n % 2 ^ 64 := by
  have h : le 8 n = [n &&& 255, (n >>> 8) &&& 255, (n >>> 16) &&& 255,
      (n >>> 24) &&& 255, (n >>> 32) &&& 255, (n >>> 40) &&& 255,
      (n >>> 48) &&& 255, (n >>> 56) &&& 255] := by
    simp [le, List.range_succ]
  rw [h]
  simp only [deLE, List.foldr_cons, List.foldr_nil, and255_mod,
    Nat.shiftRight_eq_div_pow]
  norm_num
  omega

theorem deLE_le4 (n : Nat) : deLE (le 4 n) = n % 2 ^ 32 := by
  have h : le 4 n = [n &&& 255, (n >>> 8) &&& 255, (n >>> 16) &&& 255,
      (n >>> 24) &&& 255] := by
    simp [le, List.range_succ]
  rw [h]
  simp only [deLE, List.foldr_cons, List.foldr_nil, and255_mod,
    Nat.shiftRight_eq_div_pow]
  norm_num
  omega

theorem calculate_checksum_lt (data : List Nat) : calculate_checksum data < 2 ^ 32 := by
  unfold calculate_checksum
  induction data using List.reverseRecOn with
  | nil => norm_num
  | append_singleton xs x ih =>
      rw [List.foldl_append, List.foldl_cons, List.foldl_nil]
      exact Nat.mod_lt _ (by norm_num)

theorem fixed16_eq (l : List Nat) (h : l.length = 16) : fixed16 l = l := by
  simp [fixed16, h, List.take_of_length_le (Nat.le_of_eq h)]

theorem serializeHeader_length (h : FileHeader) (hs : h.salt.length = 16)
    (hi : h.iv.length = 16) : (serializeHeader h).length = 64 := by
  simp [serializeHeader, fixed16_eq _ hs, fixed16_eq _ hi, le_length,
    magicBytes, hs, hi]

end ContainerR

namespace ContainerS
open AES AESx CBC Container ContainerP ContainerQ ContainerR

theorem serializeHeader_expand (h : FileHeader) (hs : h.salt.length = 16)
    (hi : h.iv.length = 16) :
    serializeHeader h =
      [0x53, 0x45, 0x4E, 0x54, 0x49, 0x4E, 0x41, 0x4C, 1, 0, 0, 0,
        h.classification % 256, h.flags % 256, 0, 0] ++
      (h.salt ++ (h.iv ++ (le 8 h.original_size ++
        (le 4 h.checksum ++ le 4 h.header_checksum)))) := by
  have hle2 : le 2 0 = [0, 0] := by simp [le, List.range_succ]
  simp [serializeHeader, magicBytes, fixed16_eq _ hs, fixed16_eq _ hi, hle2]

end ContainerS

namespace ContainerT
open AES AESx CBC Container ContainerP ContainerQ ContainerR ContainerS

theorem serializeHeader_salt' (h : FileHeader) (hs : h.salt.length = 16)
    (hi : h.iv.length = 16) :
    ((serializeHeader h).drop 16).take 16 = h.salt := by
  rw [serializeHeader_expand h hs hi, List.drop_left' (by rfl), List.take_left' hs]

theorem serializeHeader_iv (h : FileHeader) (hs : h.salt.length = 16)
    (hi : h.iv.length = 16) :
    ((serializeHeader h).drop 32).take 16 = h.iv := by
  rw [serializeHeader_expand h hs hi, ← List.append_assoc,
    List.drop_left' (by simp [hs]), List.take_left' hi]

theorem serializeHeader_orig (h : FileHeader) (hs : h.salt.length = 16)
    (hi : h.iv.length = 16) :
    ((serializeHeader h).drop 48).take 8 = le 8 h.original_size := by
  rw [serializeHeader_expand h hs hi, ← List.append_assoc, ← List.append_assoc,
    List.drop_left' (by simp [hs, hi]), List.take_left' (le_length 8 _)]

theorem serializeHeader_payload_checksum (h : FileHeader) (hs : h.salt.length = 16)
    (hi : h.iv.length = 16) :
    ((serializeHeader h).drop 56).take 4 = le 4 h.checksum := by
  rw [serializeHeader_expand h hs hi, ← List.append_assoc, ← List.append_assoc,
    ← List.append_assoc,
    List.drop_left' (by simp [hs, hi, le_length]), List.take_left' (le_length 4 _)]

theorem serializeHeader_header_checksum (h : FileHeader) (hs : h.salt.length = 16)
    (hi : h.iv.length = 16) :
    ((serializeHeader h).drop 60).take 4 = le 4 h.header_checksum := by
  rw [serializeHeader_expand h hs hi, ← List.append_assoc, ← List.append_assoc,
    ← List.append_assoc, ← List.append_assoc,
    List.drop_left' (by simp [hs, hi, le_length]),
    List.take_of_length_le (by rw [le_length])]

theorem serializeHeader_take16 (h : FileHeader) (hs : h.salt.length = 16)
    (hi : h.iv.length = 16) :
    (serializeHeader h).take 16 =
      [0x53, 0x45, 0x4E, 0x54, 0x49, 0x4E, 0x41, 0x4C, 1, 0, 0, 0,
        h.classification % 256, h.flags % 256, 0, 0] := by
  rw [serializeHeader_expand h hs hi, List.take_left' (by rfl)]

theorem serializeHeader_take56 (h : FileHeader) (hs : h.salt.length = 16)
    (hi : h.iv.length = 16) :
    (serializeHeader h).take 56 =
      [0x53, 0x45, 0x4E, 0x54, 0x49, 0x4E, 0x41, 0x4C, 1, 0, 0, 0,
        h.classification % 256, h.flags % 256, 0, 0] ++
      h.salt ++ h.iv ++ le 8 h.original_size := by
  rw [show (56 : Nat) = 48 + 8 from rfl, List.take_add,
    show (48 : Nat) = 32 + 16 from rfl, List.take_add,
    show (32 : Nat) = 16 + 16 from rfl, List.take_add]
  rw [serializeHeader_take16 h hs hi, serializeHeader_salt' h hs hi]
  rw [show (16 + 16 : Nat) = 32 from rfl, serializeHeader_iv h hs hi]
  rw [show (32 + 16 : Nat) = 48 from rfl, serializeHeader_orig h hs hi]

theorem serializeHeader_take60 (h : FileHeader) (hs : h.salt.length = 16)
    (hi : h.iv.length = 16) :
    (serializeHeader h).take 60 =
      [0x53, 0x45, 0x4E, 0x54, 0x49, 0x4E, 0x41, 0x4C, 1, 0, 0, 0,
        h.classification % 256, h.flags % 256, 0, 0] ++
      h.salt ++ h.iv ++ le 8 h.original_size ++ le 4 h.checksum := by
  rw [show (60 : Nat) = 56 + 4 from rfl, List.take_add,
    serializeHeader_take56 h hs hi,
    show (56 : Nat) = 56 from rfl, serializeHeader_payload_checksum h hs hi]

end ContainerT

namespace ContainerU
open AES AESx CBC Container ContainerP ContainerQ ContainerR ContainerS ContainerT

theorem encrypt_then_decrypt (password salt iv pt : List Nat) (classification : Nat)
    (hpt : ∀ b ∈ pt, b < 256) (hsalt : salt.length = 16)
    (hiv : iv.length = 16) (hivb : ∀ b ∈ iv, b < 256) (hlen : pt.length < 2 ^ 64) :
    (Container.encrypt_file_bytes password salt iv classification pt).bind
      (Container.decrypt_container password) =
      if Container.calculate_checksum pt = 0 then some pt else none := by
  have hivB : Bounded (toBlock iv) := toBlock_bounded iv hivb
  set key := KDF.derive_key_from_password password salt (List.replicate 32 0) with hkey
  set rk := AES.key_expansion key with hrk
  obtain ⟨cs, henc, hresplit, hdec, htake⟩ :=
    chunks_roundtrip rk (toBlock iv) hivB pt.length pt rfl hpt
  set header0 : FileHeader :=
    { classification := classification, flags := 0x01, salt := salt, iv := iv,
      original_size := pt.length % 2 ^ 64, checksum := 0, header_checksum := 0 }
    with hheader0
  set header : FileHeader :=
    { classification := classification, flags := 0x01, salt := salt, iv := iv,
      original_size := pt.length % 2 ^ 64, checksum := 0,
      header_checksum := calculate_checksum ((serializeHeader header0).take 60) }
    with hheader
  have hE : Container.encrypt_file_bytes password salt iv classification pt =
      some (serializeHeader header ++ cs.flatten) := by
    unfold Container.encrypt_file_bytes
    rw [← hkey, ← hrk, henc]
  rw [hE, Option.some_bind]
  have hhsalt : header.salt.length = 16 := hsalt
  have hhiv : header.iv.length = 16 := hiv
  have hhl : (serializeHeader header).length = 64 :=
    serializeHeader_length header hhsalt hhiv
  unfold Container.decrypt_container
  rw [if_neg (by
    rw [List.length_append, hhl]
    omega)]
  rw [List.take_left' hhl, List.drop_left' hhl]
  rw [serializeHeader_salt' header hhsalt hhiv, serializeHeader_iv header hhsalt hhiv,
    serializeHeader_orig header hhsalt hhiv,
    serializeHeader_payload_checksum header hhsalt hhiv]
  rw [deLE_le8, deLE_le4]
  have hchk0 : header.checksum % 2 ^ 32 = 0 := rfl
  rw [hchk0]
  rw [hresplit, ← hkey, ← hrk, hdec]
  have horig : header.original_size % 2 ^ 64 = pt.length := by
    show (pt.length % 2 ^ 64) % 2 ^ 64 = pt.length
    omega
  rw [horig]
  show (if calculate_checksum ((List.map padChunk (chunk8192 pt)).flatten.take pt.length) = 0
      then some ((List.map padChunk (chunk8192 pt)).flatten.take pt.length) else none) =
    if calculate_checksum pt = 0 then some pt else none
  rw [htake]

end ContainerU

/-! ## Claims -/

/-- C1 (counterexample): with an UNCLASSIFIED process running and a
SECRET process at the head of the ready queue, `schedule` returns
without switching — the state (counter, current, queue) is unchanged,
refuting "the scheduler performs the context switch regardless of their
classifications". -/
theorem C1_dispatch_blocked_counterexample :
    Sched.schedule
      { initialized := true, ready_queue := [⟨2, 2, .ready, 10⟩],
        current := some ⟨1, 0, .running, 10⟩, context_switches := 0 } =
      { initialized := true, ready_queue := [⟨2, 2, .ready, 10⟩],
        current := some ⟨1, 0, .running, 10⟩, context_switches := 0 } := by
  decide

/-- C1 (amended): `schedule` performs the context switch whenever the
incoming head's classification is at or below the outgoing process's
(in particular strictly below, the spec's case), and returns without
switching when the incoming classification is strictly above. -/
theorem C1_dispatch_gated_by_lattice (s : Sched.State) (cur next : Sched.Proc)
    (rest : List Sched.Proc) (hinit : s.initialized = true)
    (hcur : s.current = some cur) (hq : s.ready_queue = next :: rest) :
    (next.sec_level ≤ cur.sec_level →
      (Sched.schedule s).context_switches = s.context_switches + 1 ∧
      (Sched.schedule s).current = some { next with state := .running } ∧
      (Sched.schedule s).ready_queue =
        (if cur.state = .running then [{ cur with state := .ready }] else []) ++ rest) ∧
    (cur.sec_level < next.sec_level → Sched.schedule s = s) := by
  constructor
  · intro hle
    have hsec : Sched.security_check cur next 0 = true := by
      simp [Sched.security_check, hle]
    by_cases hst : cur.state = .running <;>
      simp [Sched.schedule, hinit, hcur, hq, hsec, hst, Sched.context_switch,
        Sched.add_to_ready_queue]
  · intro hlt
    have hsec : Sched.security_check cur next 0 = false := by
      simp [Sched.security_check]
      omega
    simp [Sched.schedule, hinit, hcur, hq, hsec]

/-- C1 witness. -/
theorem C1_dispatch_gated_by_lattice_witness :
    (Sched.schedule
      { initialized := true, ready_queue := [⟨2, 1, .ready, 10⟩],
        current := some ⟨1, 3, .running, 10⟩, context_switches := 5 }).context_switches
      = 5 + 1 :=
  ((C1_dispatch_gated_by_lattice
    { initialized := true, ready_queue := [⟨2, 1, .ready, 10⟩],
      current := some ⟨1, 3, .running, 10⟩, context_switches := 5 }
    ⟨1, 3, .running, 10⟩ ⟨2, 1, .ready, 10⟩ [] rfl rfl rfl).1 (by decide)).1

/-- C2 (counterexample): with the kernel heap initialized and the cursor
at the window start, a request one byte past the window size makes
`kmalloc` panic ("Kernel heap exhausted") instead of returning an
OutOfMemory error to the caller. -/
theorem C2_kmalloc_panic_counterexample :
    MM.kmalloc ⟨true, MM.KERNEL_HEAP_START, 0, 0⟩ (MM.KERNEL_HEAP_SIZE + 1) =
      (.panic ("Kernel heap exhausted"), ⟨true, MM.KERNEL_HEAP_START, 0, 0⟩) := by
  decide

/-- C2 (amended): when the bump cursor would pass the end of the fixed
256 MiB kernel-heap window, `kmalloc` panics ("Kernel heap exhausted")
rather than returning an error; within the window it returns the
current cursor.  Before `mm_init`, exhaustion of the 1 MiB early heap
likewise panics ("Early heap exhausted"). -/
theorem C2_kmalloc_panics_on_exhaustion (st : MM.HeapState) (size : Nat) :
    (st.initialized = true →
      st.kernel_heap_ptr + MM.align8 size < MM.U64 →
      MM.KERNEL_HEAP_START + MM.KERNEL_HEAP_SIZE < st.kernel_heap_ptr + MM.align8 size →
      MM.kmalloc st size = (.panic ("Kernel heap exhausted"), st)) ∧
    (st.initialized = true →
      st.kernel_heap_ptr + MM.align8 size ≤ MM.KERNEL_HEAP_START + MM.KERNEL_HEAP_SIZE →
      (MM.kmalloc st size).1 = .ptr st.kernel_heap_ptr) ∧
    (st.initialized = false →
      st.early_heap_offset + MM.align8 size < MM.U64 →
      MM.EARLY_HEAP_SIZE < st.early_heap_offset + MM.align8 size →
      MM.kmalloc st size = (.panic ("Early heap exhausted"), st)) := by
  refine ⟨?_, ?_, ?_⟩
  · intro h1 h2 h3
    simp [MM.kmalloc, h1, Nat.mod_eq_of_lt h2, h3]
  · intro h1 h2
    have hlt : st.kernel_heap_ptr + MM.align8 size < MM.U64 := by
      have : MM.KERNEL_HEAP_START + MM.KERNEL_HEAP_SIZE < MM.U64 := by decide
      omega
    have hng : ¬ (MM.KERNEL_HEAP_START + MM.KERNEL_HEAP_SIZE <
        st.kernel_heap_ptr + MM.align8 size) := by omega
    simp [MM.kmalloc, h1, Nat.mod_eq_of_lt hlt, hng]
  · intro h1 h2 h3
    simp [MM.kmalloc, MM.early_kmalloc, h1, Nat.mod_eq_of_lt h2, h3]

/-- C2 witness. -/
theorem C2_kmalloc_panics_on_exhaustion_witness :
    MM.kmalloc ⟨true, MM.KERNEL_HEAP_START, 0, 0⟩ (MM.KERNEL_HEAP_SIZE + 8) =
      (.panic ("Kernel heap exhausted"), ⟨true, MM.KERNEL_HEAP_START, 0, 0⟩) :=
  (C2_kmalloc_panics_on_exhaustion ⟨true, MM.KERNEL_HEAP_START, 0, 0⟩
    (MM.KERNEL_HEAP_SIZE + 8)).1 rfl (by decide) (by decide)

/-- C3 (counterexample): a write by a fully cleared (PENTAGON) but
non-root caller to `/a/system/b` — a path that merely *contains*
`/system/` without beginning with it — is denied by the source's
`check_path_security`, while the claimed policy ("write to any path
beginning with `/system/` requires uid 0; all other paths are allowed")
would allow it. -/
theorem C3_system_substring_counterexample :
    VFS.check_path_security (some ⟨4, 1⟩) "/a/system/b".toList 2 = -1 ∧
    VFS.claimed_path_policy ⟨4, 1⟩ "/a/system/b".toList 2 = 0 := by
  constructor <;> decide

/-- C3 (amended): the default policy of `check_path_security`, for any
caller: a path containing `/classified/`, `/secret/` or `/pentagon/` is
denied unless the caller's classification is at least SECRET (2); a
write (`operation & 2`) to a path *containing* `/system/` is denied
unless uid is 0; every other request is allowed (and with no current
process everything is allowed). -/
theorem C3_path_policy_characterized (p : VFS.ProcCtx) (path : List Char)
    (operation : Nat) :
    (VFS.check_path_security (some p) path operation = -1 ↔
      ((p.security_level < 2 ∧
        (VFS.classifiedStr <:+: path ∨ VFS.secretStr <:+: path ∨
         VFS.pentagonStr <:+: path)) ∨
       (operation &&& 0x02 ≠ 0 ∧ VFS.systemStr <:+: path ∧ p.uid ≠ 0))) ∧
    (VFS.check_path_security (some p) path operation = 0 ↔
      ¬ (((p.security_level < 2 ∧
        (VFS.classifiedStr <:+: path ∨ VFS.secretStr <:+: path ∨
         VFS.pentagonStr <:+: path)) ∨
       (operation &&& 0x02 ≠ 0 ∧ VFS.systemStr <:+: path ∧ p.uid ≠ 0)))) ∧
    VFS.check_path_security none path operation = 0 := by
  have hred : VFS.check_path_security (some p) path operation =
      (if p.security_level < 2 ∧
          (VFS.classifiedStr <:+: path ∨ VFS.secretStr <:+: path ∨
           VFS.pentagonStr <:+: path) then (-1 : Int)
       else if operation &&& 0x02 ≠ 0 ∧ VFS.systemStr <:+: path ∧ p.uid ≠ 0 then -1
       else 0) := rfl
  refine ⟨?_, ?_, rfl⟩ <;>
    · rw [hred]
      split_ifs with h1 h2 <;> simp_all

/-- The coalescing loop of `buddy_free_pages` computes exactly the loop
the spec describes (buddy = frame XOR 2^k, merge while free and same
order, lower frame is head, bounded by order 11). -/
theorem coalesce_eq_spec : ∀ (n : Nat) (pages : Nat → Buddy.Page)
    (fl : Nat → List Nat) (pfn order : Nat), 11 - order ≤ n →
    Buddy.coalesce pages fl pfn order = Buddy.specCoalesce pages fl pfn order := by
  intro n
  induction n with
  | zero =>
      intro pages fl pfn order h
      have hge : ¬ order < 11 := by omega
      rw [Buddy.coalesce, Buddy.specCoalesce]
      simp [hge]
  | succ n ih =>
      intro pages fl pfn order h
      by_cases hlt : order < 11
      · rw [Buddy.coalesce, Buddy.specCoalesce]
        simp only [hlt, if_true, Nat.one_shiftLeft]
        by_cases hb : (pages (pfn ^^^ 2 ^ order)).ref_count ≠ 0 ∨
            (pages (pfn ^^^ 2 ^ order)).order ≠ order
        · rw [if_pos hb, if_neg (by tauto)]
        · push_neg at hb
          rw [if_neg (by tauto), if_pos hb]
          have hmin : (if pfn > pfn ^^^ 2 ^ order then pfn ^^^ 2 ^ order else pfn) =
              min pfn (pfn ^^^ 2 ^ order) := by
            split_ifs with hgt <;> omega
          rw [hmin]
          exact ih pages _ _ (order + 1) (by omega)
      · rw [Buddy.coalesce, Buddy.specCoalesce]
        simp [hlt]

/-- C4: `buddy_free_pages` refines the spec's freeing algorithm exactly:
for every memory state, frame and order, the source function and the
algorithm as worded in §4.1 of the spec (`spec_free_pages`) produce the
same state — buddy = frame XOR 2^k, merge while the buddy is free and of
equal order (bounded by 11), the lower-numbered frame becomes the head,
and the final block is pushed on the free list of its resulting order. -/
theorem C4_buddy_free_follows_spec (st : Buddy.MemState) (pfn order : Nat) :
    Buddy.buddy_free_pages st pfn order = Buddy.spec_free_pages st pfn order := by
  unfold Buddy.buddy_free_pages Buddy.spec_free_pages
  rw [coalesce_eq_spec (11 - order) st.pages st.free_lists pfn order (by omega)]
  simp [Nat.one_shiftLeft]

/-- The insertion walk of process.c's `add_to_ready_queue` places the new
process after every node of priority `≥ proc->priority`. -/
theorem insertWalk_eq (p : ProcQ.Proc) : ∀ (l : List ProcQ.Proc) (curr : ProcQ.Proc),
    ProcQ.insertWalk p curr l =
      curr :: (l.takeWhile (fun x => decide (p.priority ≤ x.priority)) ++
        p :: l.dropWhile (fun x => decide (p.priority ≤ x.priority))) := by
  intro l
  induction l with
  | nil => intro curr; simp [ProcQ.insertWalk]
  | cons nxt rest ih =>
      intro curr
      by_cases h : p.priority ≤ nxt.priority <;>
        simp [ProcQ.insertWalk, h, List.takeWhile_cons, List.dropWhile_cons, ih]

theorem insertWalk_sorted (p : ProcQ.Proc) : ∀ (l : List ProcQ.Proc)
    (curr : ProcQ.Proc), ProcQ.SortedDesc (curr :: l) → p.priority ≤ curr.priority →
    ProcQ.SortedDesc (ProcQ.insertWalk p curr l) := by
  intro l
  induction l with
  | nil =>
      intro curr _ hcur
      exact List.chain'_cons.mpr ⟨hcur, List.chain'_singleton p⟩
  | cons nxt rest ih =>
      intro curr hs hcur
      have hs' := List.chain'_cons.mp hs
      by_cases h : p.priority ≤ nxt.priority
      · rw [show ProcQ.insertWalk p curr (nxt :: rest) =
            curr :: ProcQ.insertWalk p nxt rest from by simp [ProcQ.insertWalk, h]]
        have hhead : ProcQ.insertWalk p nxt rest =
            nxt :: (rest.takeWhile (fun x => decide (p.priority ≤ x.priority)) ++
              p :: rest.dropWhile (fun x => decide (p.priority ≤ x.priority))) :=
          insertWalk_eq p rest nxt
        rw [hhead]
        have ihn := ih nxt hs'.2 h
        rw [hhead] at ihn
        exact List.chain'_cons.mpr ⟨hs'.1, ihn⟩
      · rw [show ProcQ.insertWalk p curr (nxt :: rest) =
            curr :: p :: nxt :: rest from by simp [ProcQ.insertWalk, h]]
        exact List.chain'_cons.mpr ⟨hcur,
          List.chain'_cons.mpr ⟨by omega, hs'.2⟩⟩

/-- C5 (counterexample): scheduler.c's `add_to_ready_queue` pushes at
the head unconditionally: enqueueing a priority-10 process into a
(sorted) queue holding a priority-20 process yields a queue that is not
sorted by descending priority — the new head has the lower priority. -/
theorem C5_scheduler_headpush_counterexample :
    (Sched.add_to_ready_queue
      ⟨true, [⟨1, 0, .ready, 20⟩], none, 0⟩ ⟨2, 0, .ready, 10⟩).ready_queue =
      [⟨2, 0, .ready, 10⟩, ⟨1, 0, .ready, 20⟩] ∧
    ((Sched.add_to_ready_queue
      ⟨true, [⟨1, 0, .ready, 20⟩], none, 0⟩ ⟨2, 0, .ready, 10⟩).ready_queue.map
        Sched.Proc.priority = [10, 20] ∧
     ¬ (20 : Nat) ≤ 10) := by
  refine ⟨rfl, rfl, by omega⟩

/-- C5 (amended): process.c's `add_to_ready_queue` does maintain the
discipline — a ready process is placed exactly after every queued node
of priority `≥` its own (descending order with FIFO ties), descending
order is preserved by enqueue, and by dequeue (head removal); the
scheduler.c variant instead pushes at the head and does not maintain
this order. -/
theorem C5_ready_queue_discipline (q : List ProcQ.Proc) (p : ProcQ.Proc) :
    (p.state = .ready →
      ProcQ.add_to_ready_queue q p =
        q.takeWhile (fun x => decide (p.priority ≤ x.priority)) ++
          p :: q.dropWhile (fun x => decide (p.priority ≤ x.priority))) ∧
    (p.state = .ready → ProcQ.SortedDesc q →
      ProcQ.SortedDesc (ProcQ.add_to_ready_queue q p)) ∧
    (ProcQ.SortedDesc q → ProcQ.SortedDesc (ProcQ.dequeue q).2) := by
  refine ⟨?_, ?_, ?_⟩
  · intro hst
    unfold ProcQ.add_to_ready_queue
    rw [if_neg (by simp [hst])]
    match q with
    | [] => simp
    | h :: t =>
        by_cases hlt : h.priority < p.priority
        · simp only [hlt, if_true]
          rw [List.takeWhile_cons, List.dropWhile_cons]
          simp [show ¬ p.priority ≤ h.priority by omega]
        · simp only [hlt, if_false]
          rw [insertWalk_eq p t h, List.takeWhile_cons, List.dropWhile_cons]
          simp [show p.priority ≤ h.priority by omega]
  · intro hst hs
    unfold ProcQ.add_to_ready_queue
    rw [if_neg (by simp [hst])]
    match q with
    | [] => exact List.chain'_singleton p
    | h :: t =>
        by_cases hlt : h.priority < p.priority
        · simp only [hlt, if_true]
          exact List.chain'_cons.mpr ⟨by omega, hs⟩
        · simp only [hlt, if_false]
          exact insertWalk_sorted p t h hs (by omega)
  · intro hs
    match q with
    | [] => exact List.chain'_nil
    | h :: t => exact hs.tail

/-- C5 witness. -/
theorem C5_ready_queue_discipline_witness :
    ProcQ.add_to_ready_queue [⟨1, 20, .ready⟩, ⟨2, 10, .ready⟩] ⟨3, 10, .ready⟩ =
      [⟨1, 20, .ready⟩, ⟨2, 10, .ready⟩] ++ ⟨3, 10, .ready⟩ :: [] := by
  have h := (C5_ready_queue_discipline [⟨1, 20, .ready⟩, ⟨2, 10, .ready⟩]
    ⟨3, 10, .ready⟩).1 rfl
  rw [h]
  rfl

/-- C6 (counterexample): on a valid open handle (slot 3 holds an inode),
a read of 0 bytes and a write of 0 bytes both return -14 (EFAULT), not
0 — `sys_read`/`sys_write` reject `count == 0` exactly like a NULL
buffer. -/
theorem C6_zero_byte_io_counterexample :
    (Sys.sys_read
      ⟨Function.update (fun _ => Sys.FD.free) 3 ⟨some 7, 5, 0, 0, 1⟩, none⟩
      (fun _ _ _ => 0) 3 1000 0).1 = -14 ∧
    (Sys.sys_write
      ⟨Function.update (fun _ => Sys.FD.free) 3 ⟨some 7, 5, 0, 0, 1⟩, none⟩
      (fun _ _ _ => 0) 3 1000 0).1 = -14 := by
  constructor <;> rfl

/-- C6 (amended): a zero-byte read or write on any valid open handle
(in-range descriptor whose slot holds an inode) fails with -14 (Fault)
— regardless of the buffer — and leaves the state unchanged, so it does
have no side effects; it does not return 0. -/
theorem C6_zero_byte_io_faults (st : Sys.SysState) (r w : Sys.IoOracle)
    (fd buf : Nat) (hfd : fd < Sys.MAX_OPEN_FILES)
    (hopen : (st.file_table fd).inode ≠ none) :
    Sys.sys_read st r fd buf 0 = (-14, st) ∧
    Sys.sys_write st w fd buf 0 = (-14, st) := by
  constructor
  · unfold Sys.sys_read
    rw [if_neg (by
        rintro (h | h)
        · omega
        · exact hopen h),
      if_pos (Or.inr rfl)]
  · unfold Sys.sys_write
    rw [if_neg (by omega), if_pos (Or.inr rfl)]

/-- C6 witness. -/
theorem C6_zero_byte_io_faults_witness :
    Sys.sys_read
      ⟨Function.update (fun _ => Sys.FD.free) 3 ⟨some 7, 5, 0, 0, 1⟩, none⟩
      (fun _ _ _ => 1) 3 2000 0 =
      (-14, ⟨Function.update (fun _ => Sys.FD.free) 3 ⟨some 7, 5, 0, 0, 1⟩, none⟩) :=
  (C6_zero_byte_io_faults
    ⟨Function.update (fun _ => Sys.FD.free) 3 ⟨some 7, 5, 0, 0, 1⟩, none⟩
    (fun _ _ _ => 1) (fun _ _ _ => 1) 3 2000 (by decide)
    (by simp [Function.update, Sys.FD.free])).1

/-- After the `memcpy`/`memset` prologue, the 32-byte hash buffer is
fully initialized: the uninitialized garbage is gone. -/
theorem kdf_init_indep (salt g : List Nat) (hs : salt.length = 16)
    (hg : g.length = 32) :
    KDF.memsetL (KDF.memcpyL g salt 16) 16 0 16 = salt ++ List.replicate 16 0 := by
  unfold KDF.memcpyL KDF.memsetL
  rw [List.take_of_length_le (Nat.le_of_eq hs)]
  rw [List.take_left' hs]
  rw [List.drop_append_eq_append_drop]
  rw [List.drop_eq_nil_of_le (by omega)]
  rw [show (16 + 16 : Nat) - salt.length = 16 by omega]
  rw [List.drop_drop]
  rw [List.drop_eq_nil_of_le (by omega)]
  simp

theorem foldl_length_inv {β : Type} (f : List Nat → β → List Nat)
    (hf : ∀ acc x, (f acc x).length = acc.length) :
    ∀ (l : List β) (h : List Nat), (l.foldl f h).length = h.length := by
  intro l
  induction l with
  | nil => intro h; rfl
  | cons x xs ih => intro h; rw [List.foldl_cons, ih, hf]

/-- C9: key derivation is deterministic and depends only on (password,
salt): with the uninitialized local hash buffer modelled explicitly,
any two 32-byte garbage contents yield the identical 32-byte key. -/
theorem C9_derive_key_deterministic (password salt g1 g2 : List Nat)
    (hs : salt.length = 16) (h1 : g1.length = 32) (h2 : g2.length = 32) :
    KDF.derive_key_from_password password salt g1 =
      KDF.derive_key_from_password password salt g2 ∧
    (KDF.derive_key_from_password password salt g1).length = 32 := by
  have e1 := kdf_init_indep salt g1 hs h1
  have e2 := kdf_init_indep salt g2 hs h2
  constructor
  · unfold KDF.derive_key_from_password
    rw [e1, e2]
  · unfold KDF.derive_key_from_password
    rw [e1]
    have hmix : ∀ (h : List Nat), (KDF.mixPassword h password).length = h.length := by
      intro h
      unfold KDF.mixPassword
      exact foldl_length_inv _ (fun acc x => List.length_set acc _ _) _ h
    have hrounds : ∀ (h : List Nat),
        ((List.range 1000).foldl KDF.roundStep h).length = h.length := by
      intro h
      refine foldl_length_inv _ (fun acc x => ?_) _ h
      unfold KDF.roundStep
      exact foldl_length_inv _ (fun acc' x' => List.length_set acc' _ _) _ acc
    rw [List.length_take, hrounds, hmix]
    simp [hs]

/-- C9 witness. -/
theorem C9_derive_key_deterministic_witness :
    KDF.derive_key_from_password [] (List.replicate 16 7) (List.replicate 32 0) =
      KDF.derive_key_from_password [] (List.replicate 16 7) (List.replicate 32 9) :=
  (C9_derive_key_deterministic [] (List.replicate 16 7) (List.replicate 32 0)
    (List.replicate 32 9) (by decide) (by decide) (by decide)).1

/-- C10: `sys_open` with a non-NULL path never hands out descriptors
0, 1 or 2: a non-negative return is a descriptor in `[3, 256)`; and when
every slot at index 3 and above is occupied, it fails with -24 (EMFILE),
whatever the inode and create oracles do. -/
theorem C10_open_reserves_std_fds (st : Sys.SysState) (g1 g2 : Unit → Option Nat)
    (cr : List Char → Nat → Int) (path : List Char) (flags mode : Nat) :
    (0 ≤ (Sys.sys_open st g1 g2 cr (some path) flags mode).1 →
      3 ≤ (Sys.sys_open st g1 g2 cr (some path) flags mode).1 ∧
      (Sys.sys_open st g1 g2 cr (some path) flags mode).1 < 256) ∧
    ((∀ i, 3 ≤ i → i < Sys.MAX_OPEN_FILES → (st.file_table i).inode ≠ none) →
      (Sys.sys_open st g1 g2 cr (some path) flags mode).1 = -24) := by
  cases hf : Sys.findFreeFd st.file_table with
  | none =>
      have hres : (Sys.sys_open st g1 g2 cr (some path) flags mode).1 = -24 := by
        unfold Sys.sys_open
        rw [hf]
      constructor
      · intro h0
        rw [hres] at h0
        omega
      · intro _
        exact hres
  | some fd =>
      have hmem : fd ∈ List.range' 3 (Sys.MAX_OPEN_FILES - 3) :=
        List.mem_of_find?_eq_some hf
      have hbounds : 3 ≤ fd ∧ fd < 3 + (Sys.MAX_OPEN_FILES - 3) :=
        List.mem_range'_1.mp hmem
      have hfree : (st.file_table fd).inode = none := by
        have := List.find?_some hf
        simpa using this
      constructor
      · intro h0
        cases h2 : Sys.openInodeStep g1 g2 cr path flags mode with
        | none =>
            have hres : (Sys.sys_open st g1 g2 cr (some path) flags mode).1 = -2 := by
              unfold Sys.sys_open
              simp only []
              rw [hf]
              simp only []
              rw [h2]
            rw [hres] at h0
            omega
        | some ino =>
            have hres : (Sys.sys_open st g1 g2 cr (some path) flags mode).1 =
                Int.ofNat fd := by
              unfold Sys.sys_open
              simp only []
              rw [hf]
              simp only []
              rw [h2]
            rw [hres]
            have hcast : (Int.ofNat fd) = (fd : Int) := rfl
            rw [hcast]
            have h256 : Sys.MAX_OPEN_FILES = 256 := rfl
            rw [h256] at hbounds
            constructor <;> omega
      · intro hfull
        exact absurd hfree (hfull fd hbounds.1 (by omega))

/-- C10 witness. -/
theorem C10_open_reserves_std_fds_witness :
    (Sys.sys_open
      ⟨fun _ => ⟨some 1, 0, 0, 0, 1⟩, none⟩ (fun _ => some 0) (fun _ => some 0)
      (fun _ _ => 0) (some []) 0 0).1 = -24 :=
  (C10_open_reserves_std_fds ⟨fun _ => ⟨some 1, 0, 0, 0, 1⟩, none⟩
    (fun _ => some 0) (fun _ => some 0) (fun _ _ => 0) [] 0 0).2
    (fun i _ _ => by simp)

/-- C7 (counterexample): encrypting the one-byte plaintext `[1]` and
decrypting the container with the same password returns Invalid (`none`),
not the plaintext: the spec's decrypt verifies the payload checksum (§8
scenario 4), but `encrypt_file` never assigns the header's checksum
field, so it serializes as 0 while the payload's checksum is 1. This
refutes "decrypting that container with the same password yields exactly
the original plaintext" for every plaintext. -/
theorem C7_checksum_rejects_counterexample :
    (Container.encrypt_file_bytes [120] (List.replicate 16 1) (List.replicate 16 2)
      4 [1]).bind (Container.decrypt_container [120]) = none := by
  rw [ContainerU.encrypt_then_decrypt [120] (List.replicate 16 1)
    (List.replicate 16 2) [1] 4 (by decide) (by decide) (by decide) (by decide)
    (by decide)]
  decide

/-- C7 (amended): encrypt-then-decrypt is the identity exactly on
payloads whose 32-bit checksum is 0 (the zero-length plaintext among
them) — decryption (modelled from the spec, since
`decrypt_file`/`aes_decrypt_cbc` have no bodies in the sources) verifies
the recovered payload against the stored payload checksum, and
`encrypt_file` leaves that field 0, so a plaintext with a non-zero
checksum is rejected with Invalid (`none`) while one with checksum 0 is
recovered exactly. -/
theorem C7_encrypt_decrypt_checksum_gated (password salt iv pt : List Nat)
    (classification : Nat) (hpt : ∀ b ∈ pt, b < 256) (hsalt : salt.length = 16)
    (hiv : iv.length = 16) (hivb : ∀ b ∈ iv, b < 256) (hlen : pt.length < 2 ^ 64) :
    (Container.encrypt_file_bytes password salt iv classification pt).bind
      (Container.decrypt_container password) =
      if Container.calculate_checksum pt = 0 then some pt else none :=
  ContainerU.encrypt_then_decrypt password salt iv pt classification
    hpt hsalt hiv hivb hlen

/-- C7 witness. -/
theorem C7_encrypt_decrypt_checksum_gated_witness :
    (Container.encrypt_file_bytes [120] (List.replicate 16 1) (List.replicate 16 2)
      4 [2, 4]).bind (Container.decrypt_container [120]) =
      if Container.calculate_checksum [2, 4] = 0 then some [2, 4] else none :=
  C7_encrypt_decrypt_checksum_gated [120] (List.replicate 16 1) (List.replicate 16 2)
    [2, 4] 4 (by decide) (by decide) (by decide) (by decide) (by decide)

/-- C8 (counterexample): encrypting the empty plaintext yields a
container of 64 bytes with no ciphertext — the header is 64 bytes, not
56 — and the stored header-checksum field (bytes 60..63) is the
checksum of bytes 0..59, not of bytes 0..55. -/
theorem C8_header_64_bytes_counterexample :
    Container.encrypt_file_bytes [120] (List.replicate 16 1) (List.replicate 16 2) 4 []
      = some [83, 69, 78, 84, 73, 78, 65, 76, 1, 0, 0, 0, 4, 1, 0, 0,
              1, 1, 1, 1, 1, 1, 1, 1, 1, 1, 1, 1, 1, 1, 1, 1,
              2, 2, 2, 2, 2, 2, 2, 2, 2, 2, 2, 2, 2, 2, 2, 2,
              0, 0, 0, 0, 0, 0, 0, 0, 0, 0, 0, 0, 0, 224, 255, 239] ∧
    ([83, 69, 78, 84, 73, 78, 65, 76, 1, 0, 0, 0, 4, 1, 0, 0,
      1, 1, 1, 1, 1, 1, 1, 1, 1, 1, 1, 1, 1, 1, 1, 1,
      2, 2, 2, 2, 2, 2, 2, 2, 2, 2, 2, 2, 2, 2, 2, 2,
      0, 0, 0, 0, 0, 0, 0, 0, 0, 0, 0, 0, 0, 224, 255, 239] : List Nat).length = 64 ∧
    Container.deLE ((([83, 69, 78, 84, 73, 78, 65, 76, 1, 0, 0, 0, 4, 1, 0, 0,
      1, 1, 1, 1, 1, 1, 1, 1, 1, 1, 1, 1, 1, 1, 1, 1,
      2, 2, 2, 2, 2, 2, 2, 2, 2, 2, 2, 2, 2, 2, 2, 2,
      0, 0, 0, 0, 0, 0, 0, 0, 0, 0, 0, 0, 0, 224, 255, 239] : List Nat).drop 60).take 4)
      ≠ Container.calculate_checksum
        (([83, 69, 78, 84, 73, 78, 65, 76, 1, 0, 0, 0, 4, 1, 0, 0,
          1, 1, 1, 1, 1, 1, 1, 1, 1, 1, 1, 1, 1, 1, 1, 1,
          2, 2, 2, 2, 2, 2, 2, 2, 2, 2, 2, 2, 2, 2, 2, 2,
          0, 0, 0, 0, 0, 0, 0, 0, 0, 0, 0, 0, 0, 224, 255, 239] : List Nat).take 56) ∧
    Container.deLE ((([83, 69, 78, 84, 73, 78, 65, 76, 1, 0, 0, 0, 4, 1, 0, 0,
      1, 1, 1, 1, 1, 1, 1, 1, 1, 1, 1, 1, 1, 1, 1, 1,
      2, 2, 2, 2, 2, 2, 2, 2, 2, 2, 2, 2, 2, 2, 2, 2,
      0, 0, 0, 0, 0, 0, 0, 0, 0, 0, 0, 0, 0, 224, 255, 239] : List Nat).drop 60).take 4)
      = Container.calculate_checksum
        (([83, 69, 78, 84, 73, 78, 65, 76, 1, 0, 0, 0, 4, 1, 0, 0,
          1, 1, 1, 1, 1, 1, 1, 1, 1, 1, 1, 1, 1, 1, 1, 1,
          2, 2, 2, 2, 2, 2, 2, 2, 2, 2, 2, 2, 2, 2, 2, 2,
          0, 0, 0, 0, 0, 0, 0, 0, 0, 0, 0, 0, 0, 224, 255, 239] : List Nat).take 60) := by
  refine ⟨by decide, by decide, by decide, by decide⟩

/-- Chunked encryption never fails: every padded chunk has block-aligned
length. -/
theorem encryptChunks_total (rk : List Nat) (iv : AES.Block) :
    ∀ chunks : List (List Nat), ∃ cs, Container.encryptChunks rk iv chunks = some cs := by
  intro chunks
  induction chunks with
  | nil => exact ⟨[], rfl⟩
  | cons c cst ih =>
      obtain ⟨cs, hcs⟩ := ih
      refine ⟨AES.blocksToBytes (AES.cbcEncBlocks rk iv
        (AES.bytesToBlocks (Container.padChunk c))) :: cs, ?_⟩
      unfold Container.encryptChunks
      rw [ContainerP.aes_enc_some rk iv _ (ContainerP.padChunk_mod c), hcs]

/-- C8 (amended): the container begins with a fixed *64-byte* header:
bytes 0..55 hold magic, version, classification, flags, reserved, salt,
IV and the little-endian original length; bytes 56..59 hold the payload
checksum field (never assigned, so 0); bytes 60..63 hold the header
checksum, which covers exactly bytes 0..59; and the ciphertext follows
at offset 64. -/
theorem C8_container_header_layout (password salt iv : List Nat)
    (classification : Nat) (pt : List Nat) (hsalt : salt.length = 16)
    (hiv : iv.length = 16) :
    ∃ out cs,
      Container.encrypt_file_bytes password salt iv classification pt = some out ∧
      Container.encryptChunks
        (AES.key_expansion (KDF.derive_key_from_password password salt
          (List.replicate 32 0)))
        (AES.toBlock iv) (Container.chunk8192 pt) = some cs ∧
      out.length = 64 + cs.flatten.length ∧
      out.take 56 =
        [0x53, 0x45, 0x4E, 0x54, 0x49, 0x4E, 0x41, 0x4C, 1, 0, 0, 0,
          classification % 256, 1, 0, 0] ++ salt ++ iv ++
          Container.le 8 (pt.length % 2 ^ 64) ∧
      (out.drop 56).take 4 = Container.le 4 0 ∧
      Container.deLE ((out.drop 60).take 4) =
        Container.calculate_checksum (out.take 60) ∧
      out.drop 64 = cs.flatten := by
  obtain ⟨cs, hcs⟩ := encryptChunks_total
    (AES.key_expansion (KDF.derive_key_from_password password salt
      (List.replicate 32 0))) (AES.toBlock iv) (Container.chunk8192 pt)
  set header0 : Container.FileHeader :=
    { classification := classification, flags := 0x01, salt := salt, iv := iv,
      original_size := pt.length % 2 ^ 64, checksum := 0, header_checksum := 0 }
    with hheader0
  set header : Container.FileHeader :=
    { classification := classification, flags := 0x01, salt := salt, iv := iv,
      original_size := pt.length % 2 ^ 64, checksum := 0,
      header_checksum :=
        Container.calculate_checksum ((Container.serializeHeader header0).take 60) }
    with hheader
  have hE : Container.encrypt_file_bytes password salt iv classification pt =
      some (Container.serializeHeader header ++ cs.flatten) := by
    unfold Container.encrypt_file_bytes
    rw [hcs]
  have hhsalt : header.salt.length = 16 := hsalt
  have hhiv : header.iv.length = 16 := hiv
  have hhl : (Container.serializeHeader header).length = 64 :=
    ContainerR.serializeHeader_length header hhsalt hhiv
  refine ⟨Container.serializeHeader header ++ cs.flatten, cs, hE, hcs, ?_, ?_, ?_, ?_, ?_⟩
  · rw [List.length_append, hhl]
  · rw [List.take_append_eq_append_take, hhl,
      show (56 : Nat) - 64 = 0 from rfl, List.take_zero, List.append_nil,
      ContainerT.serializeHeader_take56 header hhsalt hhiv]
    simp [hheader]
  · rw [List.drop_append_eq_append_drop, hhl,
      show (56 : Nat) - 64 = 0 from rfl, List.drop_zero,
      List.take_append_eq_append_take,
      show ((Container.serializeHeader header).drop 56).length = 8 from by
        rw [List.length_drop, hhl],
      show (4 : Nat) - 8 = 0 from rfl, List.take_zero, List.append_nil,
      ContainerT.serializeHeader_payload_checksum header hhsalt hhiv]
  · rw [List.drop_append_eq_append_drop, hhl,
      show (60 : Nat) - 64 = 0 from rfl, List.drop_zero,
      List.take_append_eq_append_take,
      show ((Container.serializeHeader header).drop 60).length = 4 from by
        rw [List.length_drop, hhl],
      show (4 : Nat) - 4 = 0 from rfl, List.take_zero, List.append_nil,
      ContainerT.serializeHeader_header_checksum header hhsalt hhiv,
      ContainerR.deLE_le4,
      List.take_append_eq_append_take, hhl,
      show (60 : Nat) - 64 = 0 from rfl, List.take_zero, List.append_nil]
    rw [Nat.mod_eq_of_lt (ContainerR.calculate_checksum_lt _)]
    show Container.calculate_checksum ((Container.serializeHeader header0).take 60) =
      Container.calculate_checksum ((Container.serializeHeader header).take 60)
    rw [ContainerT.serializeHeader_take60 header0 hsalt hiv,
      ContainerT.serializeHeader_take60 header hhsalt hhiv]
  · exact List.drop_left' hhl

/-- C8 witness. -/
theorem C8_container_header_layout_witness :
    ∃ out cs,
      Container.encrypt_file_bytes [120] (List.replicate 16 1)
        (List.replicate 16 2) 4 [9] = some out ∧
      Container.encryptChunks
        (AES.key_expansion (KDF.derive_key_from_password [120] (List.replicate 16 1)
          (List.replicate 32 0)))
        (AES.toBlock (List.replicate 16 2)) (Container.chunk8192 [9]) = some cs ∧
      out.length = 64 + cs.flatten.length ∧
      out.take 56 =
        [0x53, 0x45, 0x4E, 0x54, 0x49, 0x4E, 0x41, 0x4C, 1, 0, 0, 0,
          4 % 256, 1, 0, 0] ++ List.replicate 16 1 ++ List.replicate 16 2 ++
          Container.le 8 ((List.length [9]) % 2 ^ 64) ∧
      (out.drop 56).take 4 = Container.le 4 0 ∧
      Container.deLE ((out.drop 60).take 4) =
        Container.calculate_checksum (out.take 60) ∧
      out.drop 64 = cs.flatten :=
  C8_container_header_layout [120] (List.replicate 16 1) (List.replicate 16 2)
    4 [9] (by decide) (by decide)
